import Mathlib

/-!
# SMA_Watch: the acquisition loop of `main.go` and the reader of `website.go`

A shallow embedding of the Go program and the theorems that settle the
properties stated about it.

Modelling conventions.

* `float64` values are rationals (`ℚ`): every statement below is about exact
  arithmetic.  Register payloads decode to integers below `2^32`, which a
  `float64` holds exactly.
* A Go function returning `(value, error)` becomes a function returning a pair
  whose last component is `Option Err` (`none` is the `nil` error).
* A run-time panic (index out of range) is the outer `Option`: `none` means the
  goroutine panicked, `some r` means the call returned `r`.
* The collaborators reached through interfaces (Modbus transport, WebBox
  gateway, SQL sink, `strconv.ParseFloat`) are the fields of a `World`: what
  each of them answers during one tick.  A `modbus.Client` is the handle it
  was built from; what a read through it returns is up to the `World`.
* `panels.mu` is not a field of the model: every function below that takes the
  lock is one atomic step, and `getPanelData` records the snapshot at every
  point where it releases the lock.
-/

namespace SMAWatch

/-! ## Constants and data model (`main.go` 18-45) -/

/-- The Go `error` values are opaque messages. -/
abbrev Err := String

def INVERTER2IPADDRESS : String := "192.168.10.41:502"
def INVERTER3IPADDRESS : String := "192.168.10.42:502"
def INVERTER4IPADDRESS : String := "192.168.10.52:502"

def CurrentA : Nat := 30769
def VoltageA : Nat := 30771
def PowerA : Nat := 30773
def CurrentB : Nat := 30957
def VoltageB : Nat := 30959
def PowerB : Nat := 30961
def VoltageC : Nat := 30963
def CurrentC : Nat := 30965
def PowerC : Nat := 30967

structure InverterString where
  Power : ℚ
  Voltage : ℚ
  Current : ℚ
deriving DecidableEq, Repr

/-- The struct `CurrentValues` without its mutex: the eleven strings and the
stored total. -/
structure CurrentValues where
  InverterStrings : Fin 11 → InverterString
  TotalPower : ℚ

/-- The zero value of `panels` at process start. -/
def CurrentValues.zero : CurrentValues :=
  { InverterStrings := fun _ => ⟨0, 0, 0⟩, TotalPower := 0 }

/-! ## Collaborators -/

/-- A `modbus.Client` built by `modbus.NewClient` over a TCP handler for
`address`. -/
structure Client where
  address : String
deriving DecidableEq, Repr

/-- The struct `sma.Channel`. -/
structure Channel where
  Unit : String
  Meta : String
  Name : String
  Value : String
deriving DecidableEq, Repr

/-- The struct `sma.Device`: the fields the program reads. -/
structure Device where
  Key : String
  Name : String
  Channels : List Channel
deriving DecidableEq, Repr

/-- The `Result` member of `sma.DevicesResponse`. -/
structure DevicesResult where
  TotalDevicesReturned : Int
  Devices : List Device

structure DevicesResponse where
  Result : DevicesResult

/-- The `Result` member of `sma.ProcessDataResponse`. -/
structure ProcessDataResult where
  Devices : List Device

structure ProcessDataResponse where
  Result : ProcessDataResult

/-- What the collaborators answer during one tick of the loop. -/
structure World where
  /-- The error of `handler.Connect()` for the TCP handler of an address. -/
  Connect : String → Option Err
  /-- The call `client.ReadInputRegisters(address, quantity)`. -/
  ReadInputRegisters : Client → Nat → Nat → Except Err (List Nat)
  /-- The call `smaClient.GetProcessData(deviceKey)`. -/
  GetProcessData : String → Except Err ProcessDataResponse
  /-- The call `strconv.ParseFloat(s, 64)`: the value and the error. -/
  ParseFloat : String → ℚ × Option Err
  /-- The error of `db.Exec` on the insert statement with the 33 values of one row. -/
  Exec : List ℚ → Option Err
  /-- The call `smaClient.GetDevices()`. -/
  GetDevices : Except Err DevicesResponse

/-! ## Register decoding (`main.go` 75-81, 136-147) -/

/-- The loop `for i := 0; i <= 3; i++ { val = val*256 + float64(b[i]) }`;
`none` is the index-out-of-range panic on a payload shorter than four bytes. -/
def byteToFloat64 (b : List Nat) : Option ℚ :=
  [0, 1, 2, 3].foldlM
    (fun (val : ℚ) (i : Nat) =>
      match b[i]? with
      | none => none
      | some x => some (val * 256 + (x : ℚ)))
    0

/-- The function `readRegister`; `math.Pow10` is the exact power of ten. -/
def readRegister (w : World) (inverter : Client) (modbusRegister registerSize : Nat)
    (resultPrecision : Int) : Option (ℚ × Option Err) :=
  match w.ReadInputRegisters inverter modbusRegister registerSize with
  | .error err => some (0, some err)
  | .ok results =>
    match byteToFloat64 results with
    | none => none
    | some val =>
      if val > 1000000 then some (0, none)
      else some (val / (10 : ℚ) ^ resultPrecision, none)

/-! ## Reading one string, writing one snapshot entry (`main.go` 203-269) -/

/-- The body of `readInverter` after its `switch`: the three reads with their
early returns, the results being the named results `amps`, `volts`, `watts`,
`err`. -/
def readStringRegisters (w : World) (client : Client)
    (ampsRegister voltsRegister wattsRegister : Nat) : Option (ℚ × ℚ × ℚ × Option Err) :=
  match readRegister w client voltsRegister 2 3 with
  | none => none
  | some (amps, some err) => some (amps, 0, 0, some err)
  | some (amps, none) =>
    match readRegister w client ampsRegister 2 2 with
    | none => none
    | some (volts, some err) => some (amps, volts, 0, some err)
    | some (volts, none) =>
      match readRegister w client wattsRegister 2 0 with
      | none => none
      | some (watts, err) => some (amps, volts, watts, err)

/-- The function `readInverter`: the `switch` on `StringID`, which leaves the
three registers at their zero value for any other `StringID`, then the reads. -/
def readInverter (w : World) (client : Client) (StringID : Char) :
    Option (ℚ × ℚ × ℚ × Option Err) :=
  let registers : Nat × Nat × Nat :=
    match StringID with
    | 'A' => (CurrentA, VoltageA, PowerA)
    | 'B' => (CurrentB, VoltageB, PowerB)
    | 'C' => (CurrentC, VoltageC, PowerC)
    | _ => (0, 0, 0)
  let ampsRegister := registers.1
  let voltsRegister := registers.2.1
  let wattsRegister := registers.2.2
  readStringRegisters w client ampsRegister voltsRegister wattsRegister

/-- The function `setPanelData`, one critical section of `panels.mu`; `none` is
the index-out-of-range panic for `panel ≥ 11`. -/
def setPanelData (panels : CurrentValues) (panel : Nat) (Amps Volts Watts : ℚ) :
    Option CurrentValues :=
  if panel < 11 then
    some { panels with
      InverterStrings := fun i =>
        if i.val = panel then { Power := Watts, Voltage := Volts, Current := Amps }
        else panels.InverterStrings i }
  else none

/-- What a call of `getPanelData` leaves behind: the snapshot when it returns,
the snapshot at each release of `panels.mu` during the call (oldest first), and
the returned error. -/
structure PanelPoll where
  panels : CurrentValues
  released : List CurrentValues
  err : Option Err

/-- The function `getPanelData`. -/
def getPanelData (w : World) (client : Client) (panelOffset : Nat) (panels : CurrentValues) :
    Option PanelPoll :=
  match readInverter w client 'A' with
  | none => none
  | some (_, _, _, some err) => some ⟨panels, [], some err⟩
  | some (amps, volts, watts, none) =>
    match setPanelData panels panelOffset amps volts watts with
    | none => none
    | some panels1 =>
      match readInverter w client 'B' with
      | none => none
      | some (_, _, _, some err) => some ⟨panels1, [panels1], some err⟩
      | some (amps, volts, watts, none) =>
        match setPanelData panels1 (panelOffset + 1) amps volts watts with
        | none => none
        | some panels2 =>
          match readInverter w client 'C' with
          | none => none
          | some (_, _, _, some err) => some ⟨panels2, [panels1, panels2], some err⟩
          | some (amps, volts, watts, none) =>
            match setPanelData panels2 (panelOffset + 2) amps volts watts with
            | none => none
            | some panels3 => some ⟨panels3, [panels1, panels2, panels3], none⟩

/-! ## The gateway path (`main.go` 83-134) -/

structure SMAValue where
  name : String
  value : String
  unit : String
deriving DecidableEq, Repr

/-- A Go `map[string]SMAValue`, read only through `m[key]`: an absent key
yields the zero `SMAValue`. -/
abbrev SMAChannelMap := String → SMAValue

/-- The function `getChannelsAsMap`: the assignments `m[Meta] = ...` in list
order, a later channel replacing an earlier one with the same `Meta`. -/
def getChannelsAsMap (channels : List Channel) : SMAChannelMap :=
  channels.foldl
    (fun (m : SMAChannelMap) (c : Channel) =>
      fun key => if key = c.Meta then ⟨c.Name, c.Value, c.Unit⟩ else m key)
    (fun _ => ⟨"", "", ""⟩)

/-- The function `stringToFloat64`: `f, err := strconv.ParseFloat(s, 64)`
assigns the named result `f`, whatever the error. -/
def stringToFloat64 (w : World) (s : String) : ℚ :=
  if s.length = 0 then 0 else (w.ParseFloat s).1

/-- The function `GetWebBoxData`: the new contents of `*ssA` and `*ssB`; `none`
is the panic of `Devices[0]` on an empty device list. -/
def GetWebBoxData (w : World) (deviceKey : String) (ssA ssB : InverterString) :
    Option (InverterString × InverterString) :=
  match w.GetProcessData deviceKey with
  | .error _ => some (ssA, ssB)
  | .ok processData =>
    match processData.Result.Devices[0]? with
    | none => none
    | some device =>
      let channelMap := getChannelsAsMap device.Channels
      some
        ({ Current := stringToFloat64 w (channelMap "A.Ms.Amp").value
           Voltage := stringToFloat64 w (channelMap "A.Ms.Vol").value
           Power := stringToFloat64 w (channelMap "A.Ms.Watt").value },
         { Current := stringToFloat64 w (channelMap "B.Ms.Amp").value
           Voltage := stringToFloat64 w (channelMap "B.Ms.Vol").value
           Power := stringToFloat64 w (channelMap "B.Ms.Watt").value })

/-! ## The sink and the reader (`main.go` 149-179, `website.go` 20-37) -/

/-- The function `recordData`: the 33 arguments it hands to `db.Exec`, in the
order of the insert statement, and the error `db.Exec` returns, which the
function only logs. -/
def recordData (w : World) (panels : CurrentValues) : List ℚ × Option Err :=
  let row : List ℚ :=
    [
     (panels.InverterStrings 0).Current, (panels.InverterStrings 0).Voltage,
     (panels.InverterStrings 0).Power,
     (panels.InverterStrings 1).Current, (panels.InverterStrings 1).Voltage,
     (panels.InverterStrings 1).Power,
     (panels.InverterStrings 2).Current, (panels.InverterStrings 2).Voltage,
     (panels.InverterStrings 2).Power,
     (panels.InverterStrings 3).Current, (panels.InverterStrings 3).Voltage,
     (panels.InverterStrings 3).Power,
     (panels.InverterStrings 4).Current, (panels.InverterStrings 4).Voltage,
     (panels.InverterStrings 4).Power,
     (panels.InverterStrings 5).Current, (panels.InverterStrings 5).Voltage,
     (panels.InverterStrings 5).Power,
     (panels.InverterStrings 6).Current, (panels.InverterStrings 6).Voltage,
     (panels.InverterStrings 6).Power,
     (panels.InverterStrings 7).Current, (panels.InverterStrings 7).Voltage,
     (panels.InverterStrings 7).Power,
     (panels.InverterStrings 8).Current, (panels.InverterStrings 8).Voltage,
     (panels.InverterStrings 8).Power,
     (panels.InverterStrings 9).Current, (panels.InverterStrings 9).Voltage,
     (panels.InverterStrings 9).Power,
     (panels.InverterStrings 10).Current, (panels.InverterStrings 10).Voltage,
     (panels.InverterStrings 10).Power]
  (row, w.Exec row)

/-- The function `getValues` up to the call of `json.Marshal`: the snapshot
handed to the serialiser. -/
def getValues (panels : CurrentValues) : CurrentValues :=
  let total : ℚ :=
    (List.finRange 11).foldl (fun total i => total + (panels.InverterStrings i).Power) 0
  { panels with TotalPower := total }

/-! ## The loop (`main.go` 187-201, 271-380) -/

/-- The function `connectToInverter`: `nil` when the handler cannot connect. -/
def connectToInverter (w : World) (address : String) : Option Client :=
  match w.Connect address with
  | some _ => none
  | none => some ⟨address⟩

/-- The function `strings.Contains`. -/
def Contains (s substr : String) : Bool :=
  s.data.tails.any fun t => substr.data.isPrefixOf t

/-- The scan for the WRTU inverter, `for webBoxDevice = 0; webBoxDevice <
TotalDevicesReturned; webBoxDevice++`, with `remaining` standing for
`TotalDevicesReturned - webBoxDevice`: the value of `webBoxDevice` after the
loop; `none` is the panic of `Devices[webBoxDevice]` out of range. -/
def findWRTU (devices : List Device) : (remaining : Nat) → (webBoxDevice : Nat) → Option Nat
  | 0, webBoxDevice => some webBoxDevice
  | remaining + 1, webBoxDevice =>
    match devices[webBoxDevice]? with
    | none => none
    | some device =>
      if Contains device.Name "WRTU" then some webBoxDevice
      else findWRTU devices remaining (webBoxDevice + 1)

/-- The calls the loop body makes, as they are logged for one tick: the
connection attempts, the polls, the call of `GetWebBoxData` with its device key,
and the call of `recordData` with the row it wrote and the error of the sink. -/
inductive Event where
  | connect (address : String)
  | poll (client : Client) (panelOffset : Nat)
  | webBox (deviceKey : String)
  | record (row : List ℚ) (err : Option Err)

/-- The events of the low-frequency branch. -/
def Event.lowFrequency : Event → Bool
  | .webBox _ => true
  | .record _ _ => true
  | _ => false

/-- The variables of `processLoop` that the ticker loop reads and writes,
together with the global `panels`. -/
structure LoopState where
  panels : CurrentValues
  client1 : Option Client
  client2 : Option Client
  client3 : Option Client
  loops : Nat

/-- The variables of `processLoop` fixed before the ticker loop starts. -/
structure Startup where
  devicesResponse : DevicesResponse
  webBoxDevice : Nat

/-- One of the three identical blocks of the loop body: reconnect when the
client is `nil`, poll when it is not, drop the client when the poll fails.
Returns the client, the snapshot and the calls made. -/
def pollSlot (w : World) (address : String) (panelOffset : Nat) (client : Option Client)
    (panels : CurrentValues) : Option (Option Client × CurrentValues × List Event) :=
  let connected : Option Client × List Event :=
    match client with
    | none => (connectToInverter w address, [Event.connect address])
    | some c => (some c, [])
  match connected.1 with
  | none => some (none, panels, connected.2)
  | some c =>
    match getPanelData w c panelOffset panels with
    | none => none
    | some r =>
      some (if r.err.isSome then none else some c, r.panels,
        connected.2 ++ [Event.poll c panelOffset])

/-- The body of `for range ticker.C`: the state after the tick and the calls
made; `none` is a panic. -/
def tick (cfg : Startup) (w : World) (st : LoopState) : Option (LoopState × List Event) :=
  match pollSlot w INVERTER2IPADDRESS 0 st.client1 st.panels with
  | none => none
  | some (client1, panels1, events1) =>
    match pollSlot w INVERTER3IPADDRESS 3 st.client2 panels1 with
    | none => none
    | some (client2, panels2, events2) =>
      match pollSlot w INVERTER4IPADDRESS 6 st.client3 panels2 with
      | none => none
      | some (client3, panels3, events3) =>
        let loops := st.loops + 1
        if loops = 15 then
          match cfg.devicesResponse.Result.Devices[cfg.webBoxDevice]? with
          | none => none
          | some device =>
            match GetWebBoxData w device.Key (panels3.InverterStrings 9)
                (panels3.InverterStrings 10) with
            | none => none
            | some (ssA, ssB) =>
              let panels4 : CurrentValues :=
                { panels3 with
                  InverterStrings := fun i =>
                    if i = 9 then ssA else if i = 10 then ssB else panels3.InverterStrings i }
              let sink := recordData w panels4
              some (⟨panels4, client1, client2, client3, 0⟩,
                events1 ++ events2 ++ events3
                  ++ [Event.webBox device.Key, Event.record sink.1 sink.2])
        else
          some (⟨panels3, client1, client2, client3, loops⟩, events1 ++ events2 ++ events3)

/-- The ticker loop over the ticks of a finite stretch of time, one `World` per
tick: the final state and the calls of each tick. -/
def run (cfg : Startup) : List World → LoopState → Option (LoopState × List (List Event))
  | [], st => some (st, [])
  | w :: ws, st =>
    match tick cfg w st with
    | none => none
    | some (st1, events) =>
      match run cfg ws st1 with
      | none => none
      | some (st2, rest) => some (st2, events :: rest)

/-- The function `processLoop` from its start: `w0` is the world during the
start-up calls, `ws` the worlds of the ticks that follow.  When `GetDevices`
fails the function returns before the loop. -/
def processLoop (w0 : World) (ws : List World) (panels : CurrentValues) :
    Option (LoopState × List (List Event)) :=
  match w0.GetDevices with
  | .error _ => some (⟨panels, none, none, none, 0⟩, [])
  | .ok devicesResponse =>
    match findWRTU devicesResponse.Result.Devices
        devicesResponse.Result.TotalDevicesReturned.toNat 0 with
    | none => none
    | some webBoxDevice =>
      let client1 : Option Client :=
        match w0.Connect "192.168.10.41:502" with
        | some _ => none
        | none => some ⟨"192.168.10.41:502"⟩
      run ⟨devicesResponse, webBoxDevice⟩ ws ⟨panels, client1, none, none, 0⟩

/-! ## Definitions used to state the properties -/

/-- The unsigned big-endian value of four bytes. -/
def bigEndian (b0 b1 b2 b3 : Nat) : Nat :=
  b0 * 2 ^ 24 + b1 * 2 ^ 16 + b2 * 2 ^ 8 + b3

/-- A world whose every register read fails, whose gateway and connections are
down. -/
def World.down : World :=
  { Connect := fun _ => some "connection refused"
    ReadInputRegisters := fun _ _ _ => .error "timeout"
    GetProcessData := fun _ => .error "unreachable"
    ParseFloat := fun _ => (0, some "invalid syntax")
    Exec := fun _ => none
    GetDevices := .error "unreachable" }

/-- The world `World.down` with every register answering the four bytes `b`. -/
def World.answering (b : List Nat) : World :=
  { World.down with ReadInputRegisters := fun _ _ _ => .ok b }

/-- The world `World.down` with the registers listed in `table` answering their
payload and every other register failing. -/
def World.withRegisters (table : List (Nat × List Nat)) : World :=
  { World.down with
    ReadInputRegisters := fun _ reg _ =>
      match table.lookup reg with
      | some b => .ok b
      | none => .error "timeout" }

/-- A world in which the registers of string A hold 5.000 A, 230.00 V and
1150 W, and every other register read fails. -/
def stringAWorld : World :=
  World.withRegisters
    [(CurrentA, [0, 0, 19, 136]), (VoltageA, [0, 0, 89, 216]), (PowerA, [0, 0, 4, 126])]

/-- A world in which every register holds 5000. -/
def steadyWorld : World := World.answering [0, 0, 19, 136]

/-- The six channel keys of the gateway with the field of `(*ssA, *ssB)` that
`GetWebBoxData` fills from each. -/
def gatewayFields (ss : InverterString × InverterString) : List (String × ℚ) :=
  [("A.Ms.Amp", ss.1.Current), ("A.Ms.Vol", ss.1.Voltage), ("A.Ms.Watt", ss.1.Power),
   ("B.Ms.Amp", ss.2.Current), ("B.Ms.Vol", ss.2.Voltage), ("B.Ms.Watt", ss.2.Power)]

/-- A world whose gateway answers with one device that reports five of the six
channels: `B.Ms.Watt` is missing. -/
def gatewayWorld : World :=
  { World.down with
    GetProcessData := fun _ =>
      .ok ⟨⟨[⟨"WRTU4Q37:2000123456", "WRTU4Q37:2000123456",
        [⟨"A", "A.Ms.Amp", "A.Ms.Amp", "1.5"⟩, ⟨"V", "A.Ms.Vol", "A.Ms.Vol", "230"⟩,
         ⟨"W", "A.Ms.Watt", "A.Ms.Watt", "345"⟩, ⟨"A", "B.Ms.Amp", "B.Ms.Amp", "2"⟩,
         ⟨"V", "B.Ms.Vol", "B.Ms.Vol", "230"⟩]⟩]⟩⟩
    ParseFloat := fun s =>
      if s = "1.5" then (3 / 2, none)
      else if s = "230" then (230, none)
      else if s = "345" then (345, none)
      else if s = "2" then (2, none)
      else (0, some "invalid syntax") }

/-- The address of each of the three register-based slots. -/
def slotAddress : Fin 3 → String
  | 0 => INVERTER2IPADDRESS
  | 1 => INVERTER3IPADDRESS
  | 2 => INVERTER4IPADDRESS

/-- The first snapshot index of each of the three register-based slots. -/
def slotOffset : Fin 3 → Nat
  | 0 => 0
  | 1 => 3
  | 2 => 6

/-- The client variable of each of the three register-based slots. -/
def LoopState.client (st : LoopState) : Fin 3 → Option Client
  | 0 => st.client1
  | 1 => st.client2
  | 2 => st.client3

/-- The device index found at start-up is inside the device list, so that
`Devices[webBoxDevice]` does not panic. -/
def Startup.Found (cfg : Startup) : Prop :=
  cfg.webBoxDevice < cfg.devicesResponse.Result.Devices.length

/-- The full row of a snapshot: for each of the eleven sources in index order,
its current, voltage and power. -/
def snapshotRow (panels : CurrentValues) : List ℚ :=
  (List.finRange 11).flatMap fun i =>
    [(panels.InverterStrings i).Current, (panels.InverterStrings i).Voltage,
      (panels.InverterStrings i).Power]

/-- The start-up variables after a scan of two devices that found no WRTU
inverter: `webBoxDevice` equals `TotalDevicesReturned`. -/
def startupNotFound : Startup :=
  ⟨⟨⟨2, [⟨"WebBox:150012345", "Sunny WebBox", []⟩,
    ⟨"SB3000TL:2100456789", "SB 3000TL-21", []⟩]⟩⟩, 2⟩

/-- A world whose gateway answers successfully with an empty device list. -/
def emptyGatewayWorld : World :=
  { World.down with GetProcessData := fun _ => .ok ⟨⟨[]⟩⟩ }

/-- A world in which connections succeed and every register read succeeds with
a payload of two bytes. -/
def shortPayloadWorld : World :=
  { World.down with
    Connect := fun _ => none
    ReadInputRegisters := fun _ _ _ => .ok [0, 0] }

/-- A start-up that found the WRTU inverter at index 0 of a one-device list. -/
def startupFound : Startup :=
  ⟨⟨⟨1, [⟨"WRTU4Q37:2000123456", "WRTU4Q37:2000123456", []⟩]⟩⟩, 0⟩

/-- The loop variables before the first tick when the first connection failed,
over the zero snapshot. -/
def LoopState.initial : LoopState :=
  ⟨CurrentValues.zero, none, none, none, 0⟩

/-- A world in which the inverter at `INVERTER3IPADDRESS` refuses connections
while the other two connect, every register holds 5000, and the gateway is
down. -/
def unreachableSlotWorld : World :=
  { World.down with
    Connect := fun address =>
      if address = INVERTER3IPADDRESS then some "connection refused" else none
    ReadInputRegisters := fun _ _ _ => .ok [0, 0, 19, 136] }

/-- A start-up world whose gateway lists a WebBox and a WRTU inverter. -/
def withWRTUWorld : World :=
  { World.down with
    GetDevices :=
      .ok ⟨⟨2, [⟨"WebBox:150012345", "Sunny WebBox", []⟩,
        ⟨"WRTU4Q37:2000123456", "WRTU4Q37:2000123456", []⟩]⟩⟩ }

/-- A start-up world whose gateway lists two devices, neither of them a WRTU
inverter. -/
def noWRTUWorld : World :=
  { World.down with
    GetDevices :=
      .ok ⟨⟨2, [⟨"WebBox:150012345", "Sunny WebBox", []⟩,
        ⟨"SB3000TL:2100456789", "SB 3000TL-21", []⟩]⟩⟩ }

/-- Every successful two-register read returns at least four bytes, so that
`byteToFloat64` does not panic. -/
def World.WellSized (w : World) : Prop :=
  ∀ (c : Client) (reg : Nat) (b : List Nat), w.ReadInputRegisters c reg 2 = .ok b → 4 ≤ b.length

/-- Every successful gateway answer lists at least one device, so that
`Devices[0]` does not panic. -/
def World.GatewayAnswers (w : World) : Prop :=
  ∀ (key : String) (r : ProcessDataResponse), w.GetProcessData key = .ok r → r.Result.Devices ≠ []

/-- The snapshot `panels` with entry `panel` replaced by `entry`. -/
def CurrentValues.set (panels : CurrentValues) (panel : Nat) (entry : InverterString) :
    CurrentValues :=
  { panels with
    InverterStrings := fun i => if i.val = panel then entry else panels.InverterStrings i }

/-- The nine registers of one poll, in the order `getPanelData` reads them. -/
def pollRegisters : List Nat :=
  [VoltageA, CurrentA, PowerA, VoltageB, CurrentB, PowerB, VoltageC, CurrentC, PowerC]

/-- The string read at position `j` of a poll. -/
def stringID : Nat → Char
  | 0 => 'A'
  | 1 => 'B'
  | _ => 'C'

/-- The snapshot entry that `setPanelData` builds from a result of
`readInverter`. -/
def entryOf (r : ℚ × ℚ × ℚ × Option Err) : InverterString :=
  { Power := r.2.2.1, Voltage := r.2.1, Current := r.1 }

/-! ## Decoding (C2, C3) -/

theorem byteToFloat64_four (b0 b1 b2 b3 : Nat) :
    byteToFloat64 [b0, b1, b2, b3] = some ((bigEndian b0 b1 b2 b3 : Nat) : ℚ) := by
  simp only [byteToFloat64, List.foldlM, bigEndian]
  simp
  ring

theorem byteToFloat64_isSome (b : List Nat) (h : 4 ≤ b.length) :
    ∃ v, byteToFloat64 b = some v := by
  match b, h with
  | b0 :: b1 :: b2 :: b3 :: rest, _ =>
    simp only [byteToFloat64, List.foldlM]
    simp

theorem readRegister_four {w : World} {inverter : Client} {modbusRegister registerSize : Nat}
    (b0 b1 b2 b3 : Nat) (p : Int)
    (hread : w.ReadInputRegisters inverter modbusRegister registerSize = .ok [b0, b1, b2, b3]) :
    readRegister w inverter modbusRegister registerSize p
      = if (bigEndian b0 b1 b2 b3 : ℚ) > 1000000 then some (0, none)
        else some ((bigEndian b0 b1 b2 b3 : ℚ) / (10 : ℚ) ^ p, none) := by
  simp only [readRegister, hread, byteToFloat64_four]

/-- C2: a register read that succeeds with four bytes whose big-endian value
`v` is below 1,000,000 returns `v / 10^p` and no error, for every precision `p`
(so for every `p ≥ 0`); `byteToFloat64` of the payload is `v`. -/
theorem readRegister_below_ceiling (w : World) (inverter : Client)
    (modbusRegister registerSize : Nat) (b0 b1 b2 b3 : Nat) (p : Int)
    (hread : w.ReadInputRegisters inverter modbusRegister registerSize = .ok [b0, b1, b2, b3])
    (hv : bigEndian b0 b1 b2 b3 < 1000000) :
    byteToFloat64 [b0, b1, b2, b3] = some (bigEndian b0 b1 b2 b3 : ℚ) ∧
    readRegister w inverter modbusRegister registerSize p
      = some ((bigEndian b0 b1 b2 b3 : ℚ) / (10 : ℚ) ^ p, none) := by
  refine ⟨byteToFloat64_four b0 b1 b2 b3, ?_⟩
  have hq : ¬ ((bigEndian b0 b1 b2 b3 : ℚ) > 1000000) := by
    have : (bigEndian b0 b1 b2 b3 : ℚ) < 1000000 := by exact_mod_cast hv
    exact not_lt.mpr this.le
  simp only [readRegister, hread, byteToFloat64_four, hq, if_false]

theorem readRegister_below_ceiling_witness :
    byteToFloat64 [0, 0, 19, 136] = some (bigEndian 0 0 19 136 : ℚ) ∧
    readRegister (World.answering [0, 0, 19, 136]) ⟨INVERTER2IPADDRESS⟩ CurrentA 2 3
      = some ((bigEndian 0 0 19 136 : ℚ) / (10 : ℚ) ^ (3 : Int), none) :=
  readRegister_below_ceiling (World.answering [0, 0, 19, 136]) ⟨INVERTER2IPADDRESS⟩
    CurrentA 2 0 0 19 136 3 rfl (by decide)

/-- C3, as the code has it: a register read that succeeds with four bytes whose
big-endian value is strictly above 1,000,000 returns exactly 0 and no error, for
every precision. -/
theorem readRegister_above_ceiling (w : World) (inverter : Client)
    (modbusRegister registerSize : Nat) (b0 b1 b2 b3 : Nat) (p : Int)
    (hread : w.ReadInputRegisters inverter modbusRegister registerSize = .ok [b0, b1, b2, b3])
    (hv : 1000000 < bigEndian b0 b1 b2 b3) :
    readRegister w inverter modbusRegister registerSize p = some (0, none) := by
  have hq : (bigEndian b0 b1 b2 b3 : ℚ) > 1000000 := by exact_mod_cast hv
  simp only [readRegister, hread, byteToFloat64_four, hq, if_true]

theorem readRegister_above_ceiling_witness :
    readRegister (World.answering [255, 255, 255, 255]) ⟨INVERTER2IPADDRESS⟩ CurrentA 2 3
      = some (0, none) :=
  readRegister_above_ceiling (World.answering [255, 255, 255, 255]) ⟨INVERTER2IPADDRESS⟩
    CurrentA 2 255 255 255 255 3 rfl (by decide)

/-- C3 fails at the ceiling itself: the payload `00 0F 42 40` is 1,000,000, which
is "at or above" the ceiling, and the read returns 1,000,000, not 0. -/
theorem readRegister_at_ceiling_not_zero :
    bigEndian 0 15 66 64 = 1000000 ∧
    readRegister (World.answering [0, 15, 66, 64]) ⟨INVERTER2IPADDRESS⟩ PowerA 2 0
      = some (1000000, none) ∧
    readRegister (World.answering [0, 15, 66, 64]) ⟨INVERTER2IPADDRESS⟩ PowerA 2 0
      ≠ some (0, none) := by
  have h : readRegister (World.answering [0, 15, 66, 64]) ⟨INVERTER2IPADDRESS⟩ PowerA 2 0
      = some (1000000, none) := by
    simp only [readRegister, World.answering, byteToFloat64_four]
    norm_num [bigEndian]
  refine ⟨by decide, h, ?_⟩
  rw [h]
  simp

/-! ## Register assignment (C6) -/

theorem stringAWorld_current (c : Client) (p : Int) :
    readRegister stringAWorld c CurrentA 2 p = some (5000 / (10 : ℚ) ^ p, none) := by
  rw [readRegister_four 0 0 19 136 p rfl]
  norm_num [bigEndian]

theorem stringAWorld_voltage (c : Client) (p : Int) :
    readRegister stringAWorld c VoltageA 2 p = some (23000 / (10 : ℚ) ^ p, none) := by
  rw [readRegister_four 0 0 89 216 p rfl]
  norm_num [bigEndian]

theorem stringAWorld_power (c : Client) (p : Int) :
    readRegister stringAWorld c PowerA 2 p = some (1150 / (10 : ℚ) ^ p, none) := by
  rw [readRegister_four 0 0 4 126 p rfl]
  norm_num [bigEndian]

theorem stringAWorld_readA (c : Client) :
    readInverter stringAWorld c 'A' = some (23, 50, 1150, none) := by
  simp only [readInverter, readStringRegisters, stringAWorld_current, stringAWorld_voltage,
    stringAWorld_power]
  norm_num

theorem stringAWorld_readB (c : Client) :
    readInverter stringAWorld c 'B' = some (0, 0, 0, some "timeout") := rfl

theorem withRegisters_wellSized (table : List (Nat × List Nat))
    (h : ∀ entry ∈ table, 4 ≤ entry.2.length) : (World.withRegisters table).WellSized := by
  intro c reg b hb
  simp only [World.withRegisters] at hb
  induction table with
  | nil => simp [List.lookup] at hb
  | cons entry rest ih =>
    obtain ⟨k, v⟩ := entry
    simp only [List.lookup] at hb
    by_cases hk : reg == k
    · simp only [hk] at hb
      have hv : v = b := by simpa using hb
      subst hv
      exact h (k, v) (by simp)
    · have hk2 : (reg == k) = false := by simpa using hk
      simp only [hk2] at hb
      exact ih (fun e he => h e (List.mem_cons_of_mem _ he)) hb

theorem stringAWorld_wellSized : stringAWorld.WellSized :=
  withRegisters_wellSized _ (by simp [List.forall_mem_cons])

/-- C6 fails on the code: with register `CurrentA` holding 5000 (5.000 A),
`VoltageA` holding 23000 (230.00 V) and `PowerA` holding 1150, `readInverter`
returns amps = 23 and volts = 50: amps is decoded from `VoltageA` and volts from
`CurrentA`, while the values decoded from the registers of the named quantities
are 5 and 230. -/
theorem readInverter_swaps_current_and_voltage :
    readInverter stringAWorld ⟨INVERTER2IPADDRESS⟩ 'A' = some (23, 50, 1150, none) ∧
    readRegister stringAWorld ⟨INVERTER2IPADDRESS⟩ CurrentA 2 3 = some (5, none) ∧
    readRegister stringAWorld ⟨INVERTER2IPADDRESS⟩ VoltageA 2 2 = some (230, none) := by
  refine ⟨stringAWorld_readA _, ?_, ?_⟩
  · rw [stringAWorld_current]
    norm_num
  · rw [stringAWorld_voltage]
    norm_num

/-- For every world, the amps of string A are what `readRegister` decodes from
register `VoltageA` with precision 3, whenever that read succeeds and the later
ones do. -/
theorem readInverter_amps_from_voltage_register (w : World) (client : Client)
    (amps volts watts : ℚ)
    (h : readInverter w client 'A' = some (amps, volts, watts, none)) :
    readRegister w client VoltageA 2 3 = some (amps, none) ∧
    readRegister w client CurrentA 2 2 = some (volts, none) ∧
    readRegister w client PowerA 2 0 = some (watts, none) := by
  simp only [readInverter, readStringRegisters] at h
  rcases h1 : readRegister w client VoltageA 2 3 with _ | ⟨a, _ | e⟩ <;> rw [h1] at h
    <;> simp at h
  rcases h2 : readRegister w client CurrentA 2 2 with _ | ⟨v, _ | e⟩ <;> rw [h2] at h
    <;> simp at h
  rcases h3 : readRegister w client PowerA 2 0 with _ | ⟨p, _ | e⟩ <;> rw [h3] at h
    <;> simp at h
  obtain ⟨rfl, rfl, rfl⟩ := h
  exact ⟨rfl, rfl, rfl⟩

/-! ## The reader (C4) -/

/-- C4: whatever `TotalPower` held before, the snapshot that `getValues`
serialises has `TotalPower` equal to the sum of the `Power` fields of its eleven
entries, and the eleven entries are those of before the call. -/
theorem getValues_total (panels : CurrentValues) :
    (getValues panels).TotalPower
      = ∑ i : Fin 11, ((getValues panels).InverterStrings i).Power ∧
    (getValues panels).InverterStrings = panels.InverterStrings := by
  refine ⟨?_, rfl⟩
  simp only [getValues, List.finRange, List.pmap, List.range, List.range.loop, List.foldl,
    Fin.sum_univ_succ, Fin.sum_univ_zero]
  simp only [Fin.isValue, zero_add, add_zero]
  ring_nf
  rfl

/-! ## Polling one group (C1, C10) -/

theorem readRegister_total {w : World} (hs : w.WellSized) (c : Client) (reg : Nat) (p : Int) :
    (∃ e, w.ReadInputRegisters c reg 2 = .error e ∧ readRegister w c reg 2 p = some (0, some e)) ∨
    (∃ b v, w.ReadInputRegisters c reg 2 = .ok b ∧ readRegister w c reg 2 p = some (v, none)) := by
  rcases h : w.ReadInputRegisters c reg 2 with e | b
  · left
    exact ⟨e, rfl, by simp [readRegister, h]⟩
  · right
    obtain ⟨v, hv⟩ := byteToFloat64_isSome b (hs c reg b h)
    by_cases hc : v > 1000000
    · exact ⟨b, 0, rfl, by simp [readRegister, h, hv, hc]⟩
    · exact ⟨b, v / (10 : ℚ) ^ p, rfl, by simp only [readRegister, h, hv, hc, if_false]⟩

/-- With well-sized payloads the three reads of a string return: either all
three reads succeeded and the error is `nil`, or the error is set. -/
theorem readStringRegisters_total {w : World} (hs : w.WellSized) (c : Client)
    (r1 r2 r3 : Nat) :
    (∃ x, readStringRegisters w c r1 r2 r3 = some x ∧ x.2.2.2 = none ∧
      ∀ reg ∈ [r1, r2, r3], ∃ b, w.ReadInputRegisters c reg 2 = .ok b) ∨
    (∃ x e, readStringRegisters w c r1 r2 r3 = some x ∧ x.2.2.2 = some e) := by
  rcases readRegister_total hs c r2 3 with ⟨e, -, h2⟩ | ⟨b2, v2, hb2, h2⟩
  · right
    exact ⟨(0, 0, 0, some e), e, by simp only [readStringRegisters, h2], rfl⟩
  rcases readRegister_total hs c r1 2 with ⟨e, -, h1⟩ | ⟨b1, v1, hb1, h1⟩
  · right
    exact ⟨(v2, 0, 0, some e), e, by simp only [readStringRegisters, h2, h1], rfl⟩
  rcases readRegister_total hs c r3 0 with ⟨e, -, h3⟩ | ⟨b3, v3, hb3, h3⟩
  · right
    exact ⟨(v2, v1, 0, some e), e, by simp only [readStringRegisters, h2, h1, h3], rfl⟩
  · left
    refine ⟨(v2, v1, v3, none), by simp only [readStringRegisters, h2, h1, h3], rfl, ?_⟩
    intro reg hreg
    simp only [List.mem_cons, List.mem_singleton, List.not_mem_nil, or_false] at hreg
    rcases hreg with rfl | rfl | rfl
    · exact ⟨b1, hb1⟩
    · exact ⟨b2, hb2⟩
    · exact ⟨b3, hb3⟩

theorem setPanelData_eq (panels : CurrentValues) (panel : Nat) (x : ℚ × ℚ × ℚ × Option Err)
    (h : panel < 11) :
    setPanelData panels panel x.1 x.2.1 x.2.2.1 = some (panels.set panel (entryOf x)) := by
  simp only [setPanelData, h, if_true, CurrentValues.set, entryOf]

/-- The outcomes of `getPanelData` when no read panics: the strings are read
in the order A, B, C, each successful string is written before the next is
read, and the first failing string ends the call. -/
theorem getPanelData_spec {w : World} (hs : w.WellSized) (c : Client) (panelOffset : Nat)
    (panels : CurrentValues) (hoff : panelOffset + 2 < 11) :
    ∃ xA xB xC,
      readInverter w c 'A' = some xA ∧
      ((∃ e, xA.2.2.2 = some e ∧ getPanelData w c panelOffset panels = some ⟨panels, [], some e⟩) ∨
       (xA.2.2.2 = none ∧ readInverter w c 'B' = some xB ∧
        ((∃ e, xB.2.2.2 = some e ∧
            getPanelData w c panelOffset panels
              = some ⟨panels.set panelOffset (entryOf xA),
                  [panels.set panelOffset (entryOf xA)], some e⟩) ∨
         (xB.2.2.2 = none ∧ readInverter w c 'C' = some xC ∧
          ((∃ e, xC.2.2.2 = some e ∧
              getPanelData w c panelOffset panels
                = some ⟨(panels.set panelOffset (entryOf xA)).set (panelOffset + 1) (entryOf xB),
                    [panels.set panelOffset (entryOf xA),
                     (panels.set panelOffset (entryOf xA)).set (panelOffset + 1) (entryOf xB)],
                    some e⟩) ∨
           (xC.2.2.2 = none ∧
              getPanelData w c panelOffset panels
                = some ⟨((panels.set panelOffset (entryOf xA)).set (panelOffset + 1)
                      (entryOf xB)).set (panelOffset + 2) (entryOf xC),
                    [panels.set panelOffset (entryOf xA),
                     (panels.set panelOffset (entryOf xA)).set (panelOffset + 1) (entryOf xB),
                     ((panels.set panelOffset (entryOf xA)).set (panelOffset + 1)
                      (entryOf xB)).set (panelOffset + 2) (entryOf xC)],
                    none⟩)))))) := by
  have tot : ∀ id, ∃ x, readInverter w c id = some x := by
    intro id
    simp only [readInverter]
    rcases readStringRegisters_total hs c _ _ _ with ⟨x, h, -⟩ | ⟨x, e, h, -⟩
    · exact ⟨x, h⟩
    · exact ⟨x, h⟩
  obtain ⟨⟨aA, vA, pA, eA⟩, hA⟩ := tot 'A'
  obtain ⟨⟨aB, vB, pB, eB⟩, hB⟩ := tot 'B'
  obtain ⟨⟨aC, vC, pC, eC⟩, hC⟩ := tot 'C'
  have s0 := setPanelData_eq panels panelOffset (aA, vA, pA, eA) (by omega)
  have s1 := setPanelData_eq (panels.set panelOffset (entryOf (aA, vA, pA, eA)))
    (panelOffset + 1) (aB, vB, pB, eB) (by omega)
  have s2 := setPanelData_eq
    ((panels.set panelOffset (entryOf (aA, vA, pA, eA))).set (panelOffset + 1)
      (entryOf (aB, vB, pB, eB)))
    (panelOffset + 2) (aC, vC, pC, eC) (by omega)
  simp only at s0 s1 s2
  refine ⟨(aA, vA, pA, eA), (aB, vB, pB, eB), (aC, vC, pC, eC), hA, ?_⟩
  cases eA with
  | some e => exact Or.inl ⟨e, rfl, by simp only [getPanelData, hA]⟩
  | none =>
    refine Or.inr ⟨rfl, hB, ?_⟩
    cases eB with
    | some e => exact Or.inl ⟨e, rfl, by simp only [getPanelData, hA, hB, s0]⟩
    | none =>
      refine Or.inr ⟨rfl, hC, ?_⟩
      cases eC with
      | some e => exact Or.inl ⟨e, rfl, by simp only [getPanelData, hA, hB, hC, s0, s1]⟩
      | none => exact Or.inr ⟨rfl, by simp only [getPanelData, hA, hB, hC, s0, s1, s2]⟩

theorem readRegister_ok_read {w : World} {c : Client} {reg : Nat} {p : Int} {v : ℚ}
    (h : readRegister w c reg 2 p = some (v, none)) :
    ∃ b, w.ReadInputRegisters c reg 2 = .ok b := by
  rcases hr : w.ReadInputRegisters c reg 2 with e | b
  · simp [readRegister, hr] at h
  · exact ⟨b, rfl⟩

/-- A string whose read returned a `nil` error had its three register reads
succeed. -/
theorem readStringRegisters_ok_reads {w : World} {c : Client} {r1 r2 r3 : Nat}
    {x : ℚ × ℚ × ℚ × Option Err}
    (h : readStringRegisters w c r1 r2 r3 = some x) (hx : x.2.2.2 = none) :
    ∀ reg ∈ [r1, r2, r3], ∃ b, w.ReadInputRegisters c reg 2 = .ok b := by
  simp only [readStringRegisters] at h
  rcases h2 : readRegister w c r2 2 3 with _ | ⟨a, _ | e⟩ <;> rw [h2] at h <;> simp at h
  · rcases h1 : readRegister w c r1 2 2 with _ | ⟨v, _ | e⟩ <;> rw [h1] at h <;> simp at h
    · rcases h3 : readRegister w c r3 2 0 with _ | ⟨p, _ | e⟩ <;> rw [h3] at h <;> simp at h
      · intro reg hreg
        simp only [List.mem_cons, List.mem_singleton, List.not_mem_nil, or_false] at hreg
        rcases hreg with rfl | rfl | rfl
        · exact readRegister_ok_read h1
        · exact readRegister_ok_read h2
        · exact readRegister_ok_read h3
      · rw [← h] at hx
        simp at hx
    · rw [← h] at hx
      simp at hx
  · rw [← h] at hx
    simp at hx

theorem set_InverterStrings (panels : CurrentValues) (panel : Nat) (entry : InverterString)
    (i : Fin 11) :
    (panels.set panel entry).InverterStrings i
      = if i.val = panel then entry else panels.InverterStrings i := rfl

/-- C1, as the code has it: when at least one of the nine register reads of a
poll fails (and no payload is short), `getPanelData` returns an error and the
loop drops the client; `m < 3` strings were read before the failing one, the
entries of the failing string and of the later strings (and every entry outside
the group) keep their values from before the poll, and the entries of the `m`
strings read before the failure hold the readings of this poll. -/
theorem getPanelData_failed_read (w : World) (c : Client) (address : String)
    (panelOffset : Nat) (panels : CurrentValues)
    (hoff : panelOffset = 0 ∨ panelOffset = 3 ∨ panelOffset = 6)
    (hs : w.WellSized)
    (hfail : ∃ reg ∈ pollRegisters, ∃ e, w.ReadInputRegisters c reg 2 = .error e) :
    ∃ r e m,
      getPanelData w c panelOffset panels = some r ∧ r.err = some e ∧
      pollSlot w address panelOffset (some c) panels
        = some (none, r.panels, [Event.poll c panelOffset]) ∧
      m < 3 ∧
      (∃ x, readInverter w c (stringID m) = some x ∧ x.2.2.2 = some e) ∧
      (∀ i : Fin 11, i.val < panelOffset ∨ panelOffset + m ≤ i.val →
        r.panels.InverterStrings i = panels.InverterStrings i) ∧
      (∀ i : Fin 11, ∀ j, j < m → i.val = panelOffset + j →
        ∃ x, readInverter w c (stringID j) = some x ∧ x.2.2.2 = none ∧
          r.panels.InverterStrings i = entryOf x) := by
  have hlt : panelOffset + 2 < 11 := by omega
  obtain ⟨xA, xB, xC, hA, h⟩ := getPanelData_spec hs c panelOffset panels hlt
  rcases h with ⟨e, heA, hg⟩ | ⟨heA, hB, h⟩
  · refine ⟨_, e, 0, hg, rfl, ?_, by omega, ⟨xA, hA, heA⟩, fun i _ => rfl, ?_⟩
    · simp [pollSlot, hg]
    · intro i j hj
      omega
  rcases h with ⟨e, heB, hg⟩ | ⟨heB, hC, h⟩
  · refine ⟨_, e, 1, hg, rfl, ?_, by omega, ⟨xB, hB, heB⟩, ?_, ?_⟩
    · simp [pollSlot, hg]
    · intro i hi
      have : i.val ≠ panelOffset := by omega
      simp [set_InverterStrings, this]
    · intro i j hj hij
      have hj0 : j = 0 := by omega
      subst hj0
      exact ⟨xA, hA, heA, by simp [set_InverterStrings, hij]⟩
  rcases h with ⟨e, heC, hg⟩ | ⟨heC, hg⟩
  · refine ⟨_, e, 2, hg, rfl, ?_, by omega, ⟨xC, hC, heC⟩, ?_, ?_⟩
    · simp [pollSlot, hg]
    · intro i hi
      have h0 : i.val ≠ panelOffset := by omega
      have h1 : i.val ≠ panelOffset + 1 := by omega
      simp [set_InverterStrings, h0, h1]
    · intro i j hj hij
      have hj0 : j = 0 ∨ j = 1 := by omega
      rcases hj0 with rfl | rfl
      · exact ⟨xA, hA, heA, by simp [set_InverterStrings, hij]⟩
      · exact ⟨xB, hB, heB, by simp [set_InverterStrings, hij]⟩
  · exfalso
    obtain ⟨reg, hreg, e, he⟩ := hfail
    have okA := readStringRegisters_ok_reads (show readStringRegisters w c CurrentA VoltageA PowerA
      = some xA from hA) heA
    have okB := readStringRegisters_ok_reads (show readStringRegisters w c CurrentB VoltageB PowerB
      = some xB from hB) heB
    have okC := readStringRegisters_ok_reads (show readStringRegisters w c CurrentC VoltageC PowerC
      = some xC from hC) heC
    have hok : ∃ b, w.ReadInputRegisters c reg 2 = .ok b := by
      simp only [pollRegisters, List.mem_cons, List.mem_singleton, List.not_mem_nil,
        or_false] at hreg
      rcases hreg with rfl | rfl | rfl | rfl | rfl | rfl | rfl | rfl | rfl
      · exact okA _ (by simp)
      · exact okA _ (by simp)
      · exact okA _ (by simp)
      · exact okB _ (by simp)
      · exact okB _ (by simp)
      · exact okB _ (by simp)
      · exact okC _ (by simp)
      · exact okC _ (by simp)
      · exact okC _ (by simp)
    obtain ⟨b, hb⟩ := hok
    rw [hb] at he
    exact absurd he (by simp)

theorem getPanelData_failed_read_witness :
    ∃ r e m,
      getPanelData stringAWorld ⟨INVERTER2IPADDRESS⟩ 0 CurrentValues.zero = some r ∧
      r.err = some e ∧
      pollSlot stringAWorld INVERTER2IPADDRESS 0 (some ⟨INVERTER2IPADDRESS⟩) CurrentValues.zero
        = some (none, r.panels, [Event.poll ⟨INVERTER2IPADDRESS⟩ 0]) ∧
      m < 3 ∧
      (∃ x, readInverter stringAWorld ⟨INVERTER2IPADDRESS⟩ (stringID m) = some x ∧
        x.2.2.2 = some e) ∧
      (∀ i : Fin 11, i.val < 0 ∨ 0 + m ≤ i.val →
        r.panels.InverterStrings i = CurrentValues.zero.InverterStrings i) ∧
      (∀ i : Fin 11, ∀ j, j < m → i.val = 0 + j →
        ∃ x, readInverter stringAWorld ⟨INVERTER2IPADDRESS⟩ (stringID j) = some x ∧
          x.2.2.2 = none ∧ r.panels.InverterStrings i = entryOf x) :=
  getPanelData_failed_read stringAWorld ⟨INVERTER2IPADDRESS⟩ INVERTER2IPADDRESS 0
    CurrentValues.zero (Or.inl rfl) stringAWorld_wellSized
    ⟨VoltageB, by simp [pollRegisters], "timeout", rfl⟩

/-- C1 fails on the code: the reads of string A succeed and the first read of
string B fails; `getPanelData` returns the error, yet snapshot entry 0 of the
group has been overwritten with the readings of string A and no longer equals
its value from before the poll. -/
theorem getPanelData_partial_update :
    stringAWorld.ReadInputRegisters ⟨INVERTER2IPADDRESS⟩ VoltageB 2 = .error "timeout" ∧
    ∃ r, getPanelData stringAWorld ⟨INVERTER2IPADDRESS⟩ 0 CurrentValues.zero = some r ∧
      r.err = some "timeout" ∧
      r.panels.InverterStrings 0 = ⟨1150, 50, 23⟩ ∧
      r.panels.InverterStrings 0 ≠ CurrentValues.zero.InverterStrings 0 := by
  refine ⟨rfl, ⟨CurrentValues.zero.set 0 ⟨1150, 50, 23⟩,
    [CurrentValues.zero.set 0 ⟨1150, 50, 23⟩], some "timeout"⟩, ?_, rfl, rfl, ?_⟩
  · have hset : setPanelData CurrentValues.zero 0 23 50 1150
        = some (CurrentValues.zero.set 0 ⟨1150, 50, 23⟩) := rfl
    simp only [getPanelData, stringAWorld_readA, stringAWorld_readB, hset]
  · simp [set_InverterStrings, CurrentValues.zero]

theorem steadyWorld_read (c : Client) (reg : Nat) (p : Int) :
    readRegister steadyWorld c reg 2 p = some (5000 / (10 : ℚ) ^ p, none) := by
  rw [readRegister_four 0 0 19 136 p rfl]
  norm_num [bigEndian]

theorem steadyWorld_readInverter (c : Client) (StringID : Char) :
    readInverter steadyWorld c StringID = some (5, 50, 5000, none) := by
  simp only [readInverter, readStringRegisters, steadyWorld_read]
  norm_num

theorem steadyWorld_wellSized : steadyWorld.WellSized := by
  intro c reg b hb
  have : b = [0, 0, 19, 136] := by
    simpa [steadyWorld, World.answering] using hb.symm
  simp [this]

/-- C10, as the code has it: a reader that takes the lock while a group is being
polled sees one of the snapshots released by `getPanelData`; in the `k`-th of
them (`k = 0, 1, 2`) the entries `offset .. offset + k` are whole entries of the
snapshot the poll ends with, and every other entry is the whole entry of before
the poll: each entry is written under one lock acquisition, the group is not. -/
theorem getPanelData_released_states (w : World) (c : Client) (panelOffset : Nat)
    (panels : CurrentValues)
    (hoff : panelOffset = 0 ∨ panelOffset = 3 ∨ panelOffset = 6)
    (hs : w.WellSized) :
    ∃ r, getPanelData w c panelOffset panels = some r ∧ r.released.length ≤ 3 ∧
      ∀ k s, r.released[k]? = some s → ∀ i : Fin 11,
        (getValues s).InverterStrings i
          = if panelOffset ≤ i.val ∧ i.val ≤ panelOffset + k then r.panels.InverterStrings i
            else panels.InverterStrings i := by
  have hlt : panelOffset + 2 < 11 := by omega
  have hget : ∀ s : CurrentValues, (getValues s).InverterStrings = s.InverterStrings :=
    fun _ => rfl
  obtain ⟨xA, xB, xC, hA, h⟩ := getPanelData_spec hs c panelOffset panels hlt
  rcases h with ⟨e, -, hg⟩ | ⟨-, -, ⟨e, -, hg⟩ | ⟨-, -, ⟨e, -, hg⟩ | ⟨-, hg⟩⟩⟩
  · refine ⟨_, hg, by simp, ?_⟩
    intro k s hk
    simp at hk
  · refine ⟨_, hg, by simp, ?_⟩
    intro k s hk i
    match k, hk with
    | 0, hk =>
      simp only [List.getElem?_cons_zero, Option.some.injEq] at hk
      subst hk
      rw [hget]
      simp only [set_InverterStrings]
      split_ifs <;> first | rfl | omega
  · refine ⟨_, hg, by simp, ?_⟩
    intro k s hk i
    match k, hk with
    | 0, hk =>
      simp only [List.getElem?_cons_zero, Option.some.injEq] at hk
      subst hk
      rw [hget]
      simp only [set_InverterStrings]
      split_ifs <;> first | rfl | omega
    | 1, hk =>
      simp only [List.getElem?_cons_succ, List.getElem?_cons_zero, Option.some.injEq] at hk
      subst hk
      rw [hget]
      simp only [set_InverterStrings]
      split_ifs <;> first | rfl | omega
  · refine ⟨_, hg, by simp, ?_⟩
    intro k s hk i
    match k, hk with
    | 0, hk =>
      simp only [List.getElem?_cons_zero, Option.some.injEq] at hk
      subst hk
      rw [hget]
      simp only [set_InverterStrings]
      split_ifs <;> first | rfl | omega
    | 1, hk =>
      simp only [List.getElem?_cons_succ, List.getElem?_cons_zero, Option.some.injEq] at hk
      subst hk
      rw [hget]
      simp only [set_InverterStrings]
      split_ifs <;> first | rfl | omega
    | 2, hk =>
      simp only [List.getElem?_cons_succ, List.getElem?_cons_zero, Option.some.injEq] at hk
      subst hk
      rw [hget]
      simp only [set_InverterStrings]
      split_ifs <;> first | rfl | omega

theorem getPanelData_released_states_witness :
    ∃ r, getPanelData steadyWorld ⟨INVERTER3IPADDRESS⟩ 3 CurrentValues.zero = some r ∧
      r.released.length ≤ 3 ∧
      ∀ k s, r.released[k]? = some s → ∀ i : Fin 11,
        (getValues s).InverterStrings i
          = if 3 ≤ i.val ∧ i.val ≤ 3 + k then r.panels.InverterStrings i
            else CurrentValues.zero.InverterStrings i :=
  getPanelData_released_states steadyWorld ⟨INVERTER3IPADDRESS⟩ 3 CurrentValues.zero
    (Or.inr (Or.inl rfl)) steadyWorld_wellSized

/-- C10 fails on the code: during a successful poll of group 0 the lock is free
after the first `setPanelData`; a reader running `getValues` there sees entry 0
with the values of the current tick and entries 1 and 2 with the values of the
previous tick, which differ from the values the poll ends with. -/
theorem getPanelData_torn_group :
    ∃ r s, getPanelData steadyWorld ⟨INVERTER2IPADDRESS⟩ 0 CurrentValues.zero = some r ∧
      r.err = none ∧ s ∈ r.released ∧
      (getValues s).InverterStrings 0 = r.panels.InverterStrings 0 ∧
      (getValues s).InverterStrings 0 ≠ CurrentValues.zero.InverterStrings 0 ∧
      (getValues s).InverterStrings 1 = CurrentValues.zero.InverterStrings 1 ∧
      (getValues s).InverterStrings 1 ≠ r.panels.InverterStrings 1 ∧
      (getValues s).InverterStrings 2 = CurrentValues.zero.InverterStrings 2 ∧
      (getValues s).InverterStrings 2 ≠ r.panels.InverterStrings 2 := by
  have h1 : setPanelData CurrentValues.zero 0 5 50 5000
      = some (CurrentValues.zero.set 0 ⟨5000, 50, 5⟩) := rfl
  have h2 : setPanelData (CurrentValues.zero.set 0 ⟨5000, 50, 5⟩) (0 + 1) 5 50 5000
      = some ((CurrentValues.zero.set 0 ⟨5000, 50, 5⟩).set 1 ⟨5000, 50, 5⟩) := rfl
  have h3 : setPanelData ((CurrentValues.zero.set 0 ⟨5000, 50, 5⟩).set 1 ⟨5000, 50, 5⟩)
      (0 + 2) 5 50 5000
      = some (((CurrentValues.zero.set 0 ⟨5000, 50, 5⟩).set 1 ⟨5000, 50, 5⟩).set 2
          ⟨5000, 50, 5⟩) := rfl
  refine ⟨⟨((CurrentValues.zero.set 0 ⟨5000, 50, 5⟩).set 1 ⟨5000, 50, 5⟩).set 2 ⟨5000, 50, 5⟩,
    [CurrentValues.zero.set 0 ⟨5000, 50, 5⟩,
     (CurrentValues.zero.set 0 ⟨5000, 50, 5⟩).set 1 ⟨5000, 50, 5⟩,
     ((CurrentValues.zero.set 0 ⟨5000, 50, 5⟩).set 1 ⟨5000, 50, 5⟩).set 2 ⟨5000, 50, 5⟩],
    none⟩, CurrentValues.zero.set 0 ⟨5000, 50, 5⟩, ?_, ?_⟩
  · simp only [getPanelData, steadyWorld_readInverter, h1, h2, h3]
  · refine ⟨rfl, by simp, rfl, ?_, rfl, ?_, rfl, ?_⟩
    · simp [getValues, set_InverterStrings, CurrentValues.zero]
    · simp [getValues, set_InverterStrings, CurrentValues.zero]
    · simp [getValues, set_InverterStrings, CurrentValues.zero]

/-! ## The gateway path (C7) -/

theorem foldl_channels_absent (channels : List Channel) (m0 : SMAChannelMap) (key : String)
    (h : ∀ c ∈ channels, c.Meta ≠ key) :
    (channels.foldl
      (fun (m : SMAChannelMap) (c : Channel) =>
        fun k => if k = c.Meta then ⟨c.Name, c.Value, c.Unit⟩ else m k) m0) key = m0 key := by
  induction channels generalizing m0 with
  | nil => rfl
  | cons c rest ih =>
    simp only [List.foldl]
    rw [ih _ (fun d hd => h d (List.mem_cons_of_mem _ hd))]
    have : key ≠ c.Meta := fun hk => h c (List.mem_cons_self _ _) hk.symm
    simp [this]

/-- A key carried by no channel reads as the zero `SMAValue`. -/
theorem getChannelsAsMap_absent (channels : List Channel) (key : String)
    (h : ∀ c ∈ channels, c.Meta ≠ key) :
    getChannelsAsMap channels key = ⟨"", "", ""⟩ :=
  foldl_channels_absent channels _ key h

/-- A key reads as the last channel that carries it. -/
theorem getChannelsAsMap_last (pre post : List Channel) (c : Channel)
    (h : ∀ d ∈ post, d.Meta ≠ c.Meta) :
    getChannelsAsMap (pre ++ c :: post) c.Meta = ⟨c.Name, c.Value, c.Unit⟩ := by
  simp only [getChannelsAsMap, List.foldl_append, List.foldl]
  rw [foldl_channels_absent post _ c.Meta h]
  simp

theorem stringToFloat64_empty (w : World) : stringToFloat64 w "" = 0 := rfl

theorem stringToFloat64_eq (w : World) (s : String) :
    stringToFloat64 w s = if s = "" then 0 else (w.ParseFloat s).1 := by
  have h : s.length = 0 ↔ s = "" := by
    constructor
    · intro hl
      have hdata : s.data = [] := List.length_eq_zero.mp hl
      exact String.ext hdata
    · intro hs
      rw [hs]
      rfl
  simp only [stringToFloat64, h]

/-- C7: when the gateway query succeeds and lists a device, `GetWebBoxData`
completes; each of the six fields whose key no channel carries is set to 0, and
each field whose key is carried is set to the number `strconv.ParseFloat`
returns for the value of the last channel carrying it (0 when that value is the
empty string, which is not parsed).  In particular without a `B.Ms.Watt` channel
the power of group B is 0 while its current and voltage follow their keys. -/
theorem GetWebBoxData_missing_keys (w : World) (deviceKey : String) (ssA ssB : InverterString)
    (processData : ProcessDataResponse) (device : Device) (rest : List Device)
    (hq : w.GetProcessData deviceKey = .ok processData)
    (hd : processData.Result.Devices = device :: rest) :
    ∃ out, GetWebBoxData w deviceKey ssA ssB = some out ∧
      (∀ kf ∈ gatewayFields out,
        ((∀ c ∈ device.Channels, c.Meta ≠ kf.1) → kf.2 = 0) ∧
        (∀ pre c post, device.Channels = pre ++ c :: post → c.Meta = kf.1 →
          (∀ d ∈ post, d.Meta ≠ kf.1) →
          kf.2 = if c.Value = "" then 0 else (w.ParseFloat c.Value).1)) ∧
      ((∀ c ∈ device.Channels, c.Meta ≠ "B.Ms.Watt") → out.2.Power = 0) := by
  have key : ∀ k : String,
      ((∀ c ∈ device.Channels, c.Meta ≠ k) →
        stringToFloat64 w (getChannelsAsMap device.Channels k).value = 0) ∧
      (∀ pre c post, device.Channels = pre ++ c :: post → c.Meta = k →
        (∀ d ∈ post, d.Meta ≠ k) →
        stringToFloat64 w (getChannelsAsMap device.Channels k).value
          = if c.Value = "" then 0 else (w.ParseFloat c.Value).1) := by
    intro k
    constructor
    · intro h
      rw [getChannelsAsMap_absent _ _ h]
      rfl
    · intro pre c post hc hk hpost
      subst hk
      rw [hc, getChannelsAsMap_last pre post c hpost, stringToFloat64_eq]
  have hrun : GetWebBoxData w deviceKey ssA ssB
      = some
        ({ Current := stringToFloat64 w (getChannelsAsMap device.Channels "A.Ms.Amp").value
           Voltage := stringToFloat64 w (getChannelsAsMap device.Channels "A.Ms.Vol").value
           Power := stringToFloat64 w (getChannelsAsMap device.Channels "A.Ms.Watt").value },
         { Current := stringToFloat64 w (getChannelsAsMap device.Channels "B.Ms.Amp").value
           Voltage := stringToFloat64 w (getChannelsAsMap device.Channels "B.Ms.Vol").value
           Power := stringToFloat64 w (getChannelsAsMap device.Channels "B.Ms.Watt").value }) := by
    simp only [GetWebBoxData, hq, hd, List.getElem?_cons_zero]
  refine ⟨_, hrun, ?_, ?_⟩
  · intro kf hkf
    simp only [gatewayFields, List.mem_cons, List.mem_singleton, List.not_mem_nil,
      or_false] at hkf
    rcases hkf with rfl | rfl | rfl | rfl | rfl | rfl <;> exact key _
  · exact (key "B.Ms.Watt").1

/-- The gateway answer of `gatewayWorld`, which lacks `B.Ms.Watt`: group B gets
power 0 with current 2 and voltage 230, whatever the entries held before. -/
theorem GetWebBoxData_gatewayWorld :
    GetWebBoxData gatewayWorld "WRTU4Q37:2000123456" ⟨7, 7, 7⟩ ⟨7, 7, 7⟩
      = some (⟨345, 230, 3 / 2⟩, ⟨0, 230, 2⟩) := by
  simp [GetWebBoxData, gatewayWorld, getChannelsAsMap, stringToFloat64]
  decide

theorem GetWebBoxData_missing_keys_witness :
    ∃ out, GetWebBoxData gatewayWorld "WRTU4Q37:2000123456" ⟨7, 7, 7⟩ ⟨7, 7, 7⟩ = some out ∧
      (∀ kf ∈ gatewayFields out,
        ((∀ c ∈ [(⟨"A", "A.Ms.Amp", "A.Ms.Amp", "1.5"⟩ : Channel),
            ⟨"V", "A.Ms.Vol", "A.Ms.Vol", "230"⟩, ⟨"W", "A.Ms.Watt", "A.Ms.Watt", "345"⟩,
            ⟨"A", "B.Ms.Amp", "B.Ms.Amp", "2"⟩, ⟨"V", "B.Ms.Vol", "B.Ms.Vol", "230"⟩],
            c.Meta ≠ kf.1) → kf.2 = 0) ∧
        (∀ pre c post,
          [(⟨"A", "A.Ms.Amp", "A.Ms.Amp", "1.5"⟩ : Channel),
            ⟨"V", "A.Ms.Vol", "A.Ms.Vol", "230"⟩, ⟨"W", "A.Ms.Watt", "A.Ms.Watt", "345"⟩,
            ⟨"A", "B.Ms.Amp", "B.Ms.Amp", "2"⟩, ⟨"V", "B.Ms.Vol", "B.Ms.Vol", "230"⟩]
            = pre ++ c :: post → c.Meta = kf.1 →
          (∀ d ∈ post, d.Meta ≠ kf.1) →
          kf.2 = if c.Value = "" then 0 else (gatewayWorld.ParseFloat c.Value).1)) ∧
      ((∀ c ∈ [(⟨"A", "A.Ms.Amp", "A.Ms.Amp", "1.5"⟩ : Channel),
            ⟨"V", "A.Ms.Vol", "A.Ms.Vol", "230"⟩, ⟨"W", "A.Ms.Watt", "A.Ms.Watt", "345"⟩,
            ⟨"A", "B.Ms.Amp", "B.Ms.Amp", "2"⟩, ⟨"V", "B.Ms.Vol", "B.Ms.Vol", "230"⟩],
            c.Meta ≠ "B.Ms.Watt") → out.2.Power = 0) :=
  GetWebBoxData_missing_keys gatewayWorld "WRTU4Q37:2000123456" ⟨7, 7, 7⟩ ⟨7, 7, 7⟩ _ _ _ rfl rfl

/-! ## The loop body -/

theorem setPanelData_frame {q q' : CurrentValues} {panel : Nat} {a v p : ℚ}
    (h : setPanelData q panel a v p = some q') (i : Fin 11) (hi : i.val ≠ panel) :
    q'.InverterStrings i = q.InverterStrings i := by
  simp only [setPanelData] at h
  split_ifs at h
  simp only [Option.some.injEq] at h
  subst h
  simp [hi]

/-- A poll writes only the three entries of its group. -/
theorem getPanelData_frame {w : World} {c : Client} {panelOffset : Nat}
    {panels : CurrentValues} {r : PanelPoll}
    (h : getPanelData w c panelOffset panels = some r) (i : Fin 11)
    (hi : i.val < panelOffset ∨ panelOffset + 3 ≤ i.val) :
    r.panels.InverterStrings i = panels.InverterStrings i := by
  simp only [getPanelData] at h
  rcases hA : readInverter w c 'A' with _ | ⟨a, v, p, _ | e⟩ <;> rw [hA] at h <;>
    simp only [Option.some.injEq] at h
  · exact absurd h (by simp)
  · rcases h1 : setPanelData panels panelOffset a v p with _ | p1 <;> rw [h1] at h <;>
      simp only [] at h
    · exact absurd h (by simp)
    have f1 := setPanelData_frame h1 i (by omega)
    rcases hB : readInverter w c 'B' with _ | ⟨a, v, p, _ | e⟩ <;> rw [hB] at h <;>
      simp only [Option.some.injEq] at h
    · exact absurd h (by simp)
    · rcases h2 : setPanelData p1 (panelOffset + 1) a v p with _ | p2 <;> rw [h2] at h <;>
        simp only [] at h
      · exact absurd h (by simp)
      have f2 := setPanelData_frame h2 i (by omega)
      rcases hC : readInverter w c 'C' with _ | ⟨a, v, p, _ | e⟩ <;> rw [hC] at h <;>
        simp only [Option.some.injEq] at h
      · exact absurd h (by simp)
      · rcases h3 : setPanelData p2 (panelOffset + 2) a v p with _ | p3 <;> rw [h3] at h <;>
          simp only [Option.some.injEq] at h
        · exact absurd h (by simp)
        have f3 := setPanelData_frame h3 i (by omega)
        subst h
        simp only [f3, f2, f1]
      · subst h
        simp only [f2, f1]
    · subst h
      exact f1
  · subst h
    rfl

/-- What one slot block of the loop body does, whenever it returns: it writes
only the entries of its group, makes no low-frequency call, polls only its own
offset, and polls only when it holds a client or the connection succeeds. -/
theorem pollSlot_inv {w : World} {address : String} {panelOffset : Nat}
    {client : Option Client} {panels : CurrentValues}
    {out : Option Client × CurrentValues × List Event}
    (h : pollSlot w address panelOffset client panels = some out) :
    (∀ i : Fin 11, i.val < panelOffset ∨ panelOffset + 3 ≤ i.val →
      out.2.1.InverterStrings i = panels.InverterStrings i) ∧
    out.2.2.filter Event.lowFrequency = [] ∧
    (∀ c off, Event.poll c off ∈ out.2.2 → off = panelOffset) ∧
    (client = none → w.Connect address ≠ none → out = (none, panels, [Event.connect address])) := by
  simp only [pollSlot] at h
  cases client with
  | some c =>
    simp only [] at h
    rcases hg : getPanelData w c panelOffset panels with _ | r <;> rw [hg] at h <;>
      simp only [Option.some.injEq] at h
    · exact absurd h (by simp)
    subst h
    refine ⟨fun i hi => getPanelData_frame hg i hi, by simp [Event.lowFrequency], ?_, ?_⟩
    · intro c' off hmem
      simp at hmem
      exact hmem.2
    · intro hnone
      exact absurd hnone (by simp)
  | none =>
    simp only [connectToInverter] at h
    rcases hc : w.Connect address with _ | e <;> rw [hc] at h <;> simp only [] at h
    · rcases hg : getPanelData w ⟨address⟩ panelOffset panels with _ | r <;> rw [hg] at h <;>
        simp only [Option.some.injEq] at h
      · exact absurd h (by simp)
      subst h
      refine ⟨fun i hi => getPanelData_frame hg i hi, by simp [Event.lowFrequency], ?_, ?_⟩
      · intro c' off hmem
        simp at hmem
        exact hmem.2
      · intro _ hne
        exact absurd rfl hne
    · simp only [Option.some.injEq] at h
      subst h
      refine ⟨fun i _ => rfl, by simp [Event.lowFrequency], ?_, fun _ _ => rfl⟩
      intro c' off hmem
      simp at hmem

/-- With well-sized payloads a slot block returns. -/
theorem pollSlot_total {w : World} (hs : w.WellSized) (address : String) (panelOffset : Nat)
    (client : Option Client) (panels : CurrentValues) (hoff : panelOffset + 2 < 11) :
    ∃ out, pollSlot w address panelOffset client panels = some out := by
  have hget : ∀ c, ∃ r, getPanelData w c panelOffset panels = some r := by
    intro c
    obtain ⟨xA, xB, xC, -, h⟩ := getPanelData_spec hs c panelOffset panels hoff
    rcases h with ⟨e, -, hg⟩ | ⟨-, -, ⟨e, -, hg⟩ | ⟨-, -, ⟨e, -, hg⟩ | ⟨-, hg⟩⟩⟩ <;>
      exact ⟨_, hg⟩
  simp only [pollSlot]
  cases client with
  | some c =>
    obtain ⟨r, hr⟩ := hget c
    simp only [hr]
    exact ⟨_, rfl⟩
  | none =>
    simp only [connectToInverter]
    rcases hc : w.Connect address with _ | e
    · obtain ⟨r, hr⟩ := hget ⟨address⟩
      simp only [hr]
      exact ⟨_, rfl⟩
    · exact ⟨_, rfl⟩

/-- The shape of a tick that returns: three slot blocks in sequence, then the
counter, and on the fifteenth count the gateway query and the sink write. -/
theorem tick_inv {cfg : Startup} {w : World} {st st' : LoopState} {events : List Event}
    (h : tick cfg w st = some (st', events)) :
    ∃ o1 o2 o3,
      pollSlot w INVERTER2IPADDRESS 0 st.client1 st.panels = some o1 ∧
      pollSlot w INVERTER3IPADDRESS 3 st.client2 o1.2.1 = some o2 ∧
      pollSlot w INVERTER4IPADDRESS 6 st.client3 o2.2.1 = some o3 ∧
      st'.client1 = o1.1 ∧ st'.client2 = o2.1 ∧ st'.client3 = o3.1 ∧
      ((st.loops + 1 = 15 ∧ st'.loops = 0 ∧
        ∃ device ssA ssB,
          cfg.devicesResponse.Result.Devices[cfg.webBoxDevice]? = some device ∧
          GetWebBoxData w device.Key (o3.2.1.InverterStrings 9) (o3.2.1.InverterStrings 10)
            = some (ssA, ssB) ∧
          (∀ i : Fin 11, i.val < 9 → st'.panels.InverterStrings i = o3.2.1.InverterStrings i) ∧
          st'.panels.InverterStrings 9 = ssA ∧ st'.panels.InverterStrings 10 = ssB ∧
          events = o1.2.2 ++ o2.2.2 ++ o3.2.2
            ++ [Event.webBox device.Key,
                Event.record (recordData w st'.panels).1 (recordData w st'.panels).2]) ∨
       (st.loops + 1 ≠ 15 ∧ st'.loops = st.loops + 1 ∧ st'.panels = o3.2.1 ∧
        events = o1.2.2 ++ o2.2.2 ++ o3.2.2)) := by
  simp only [tick] at h
  rcases h1 : pollSlot w INVERTER2IPADDRESS 0 st.client1 st.panels with _ | ⟨c1, p1, e1⟩ <;>
    rw [h1] at h <;> simp only [] at h
  · exact absurd h (by simp)
  rcases h2 : pollSlot w INVERTER3IPADDRESS 3 st.client2 p1 with _ | ⟨c2, p2, e2⟩ <;>
    rw [h2] at h <;> simp only [] at h
  · exact absurd h (by simp)
  rcases h3 : pollSlot w INVERTER4IPADDRESS 6 st.client3 p2 with _ | ⟨c3, p3, e3⟩ <;>
    rw [h3] at h <;> simp only [] at h
  · exact absurd h (by simp)
  refine ⟨(c1, p1, e1), (c2, p2, e2), (c3, p3, e3), rfl, h2, h3, ?_⟩
  by_cases hl : st.loops + 1 = 15
  · simp only [hl, if_true] at h
    rcases hd : cfg.devicesResponse.Result.Devices[cfg.webBoxDevice]? with _ | device <;>
      rw [hd] at h <;> simp only [] at h
    · exact absurd h (by simp)
    rcases hg : GetWebBoxData w device.Key (p3.InverterStrings 9) (p3.InverterStrings 10)
      with _ | ⟨ssA, ssB⟩ <;> rw [hg] at h <;> simp only [Option.some.injEq, Prod.mk.injEq] at h
    · exact absurd h (by simp)
    obtain ⟨hst, hev⟩ := h
    subst hst
    refine ⟨rfl, rfl, rfl, Or.inl ⟨hl, rfl, device, ssA, ssB, rfl, hg, ?_, rfl, rfl, hev.symm⟩⟩
    intro i hi
    have h9 : i ≠ 9 := fun hh => by
      subst hh
      exact absurd hi (by decide)
    have h10 : i ≠ 10 := fun hh => by
      subst hh
      exact absurd hi (by decide)
    simp [h9, h10]
  · simp only [hl, if_false, Option.some.injEq, Prod.mk.injEq] at h
    obtain ⟨hst, hev⟩ := h
    subst hst
    exact ⟨rfl, rfl, rfl, Or.inr ⟨hl, rfl, rfl, hev.symm⟩⟩

/-- The row that `recordData` writes is the full row of the snapshot, and the
error it logs is the answer of the sink to that row. -/
theorem recordData_row (w : World) (panels : CurrentValues) :
    recordData w panels = (snapshotRow panels, w.Exec (snapshotRow panels)) := rfl

theorem GetWebBoxData_total {w : World} (hg : w.GatewayAnswers) (deviceKey : String)
    (ssA ssB : InverterString) : ∃ out, GetWebBoxData w deviceKey ssA ssB = some out := by
  simp only [GetWebBoxData]
  rcases hq : w.GetProcessData deviceKey with e | r
  · exact ⟨_, rfl⟩
  · have hne := hg deviceKey r hq
    rcases hd : r.Result.Devices with _ | ⟨d, rest⟩
    · exact absurd hd hne
    · simp only [hd, List.getElem?_cons_zero]
      exact ⟨_, rfl⟩

/-- A tick returns when the start-up index is in range, payloads are well-sized
and gateway answers list a device. -/
theorem tick_total {cfg : Startup} {w : World} (hf : cfg.Found) (hs : w.WellSized)
    (hg : w.GatewayAnswers) (st : LoopState) : ∃ out, tick cfg w st = some out := by
  obtain ⟨⟨c1, p1, e1⟩, h1⟩ := pollSlot_total hs INVERTER2IPADDRESS 0 st.client1 st.panels
    (by decide)
  obtain ⟨⟨c2, p2, e2⟩, h2⟩ := pollSlot_total hs INVERTER3IPADDRESS 3 st.client2 p1 (by decide)
  obtain ⟨⟨c3, p3, e3⟩, h3⟩ := pollSlot_total hs INVERTER4IPADDRESS 6 st.client3 p2 (by decide)
  simp only [tick, h1, h2, h3]
  by_cases hl : st.loops + 1 = 15
  · simp only [hl, if_true]
    have hd : cfg.devicesResponse.Result.Devices[cfg.webBoxDevice]?
        = some (cfg.devicesResponse.Result.Devices[cfg.webBoxDevice]) :=
      List.getElem?_eq_getElem hf
    obtain ⟨⟨ssA, ssB⟩, hw⟩ := GetWebBoxData_total hg
      (cfg.devicesResponse.Result.Devices[cfg.webBoxDevice]).Key
      (p3.InverterStrings 9) (p3.InverterStrings 10)
    simp only [hd, hw]
    exact ⟨_, rfl⟩
  · simp only [hl, if_false]
    exact ⟨_, rfl⟩

theorem run_total {cfg : Startup} (hf : cfg.Found) (ws : List World)
    (hw : ∀ w ∈ ws, w.WellSized ∧ w.GatewayAnswers) (st : LoopState) :
    ∃ out, run cfg ws st = some out := by
  induction ws generalizing st with
  | nil => exact ⟨_, rfl⟩
  | cons w ws ih =>
    obtain ⟨⟨st1, ev⟩, h1⟩ := tick_total hf (hw w (List.mem_cons_self _ _)).1
      (hw w (List.mem_cons_self _ _)).2 st
    obtain ⟨⟨st2, rest⟩, h2⟩ := ih (fun w' hw' => hw w' (List.mem_cons_of_mem _ hw')) st1
    simp only [run, h1, h2]
    exact ⟨_, rfl⟩

theorem run_cons_inv {cfg : Startup} {w : World} {ws : List World} {st st' : LoopState}
    {evs : List (List Event)} (h : run cfg (w :: ws) st = some (st', evs)) :
    ∃ st1 ev rest, tick cfg w st = some (st1, ev) ∧ run cfg ws st1 = some (st', rest) ∧
      evs = ev :: rest := by
  simp only [run] at h
  rcases h1 : tick cfg w st with _ | ⟨st1, ev⟩ <;> rw [h1] at h <;> simp only [] at h
  · exact absurd h (by simp)
  rcases h2 : run cfg ws st1 with _ | ⟨st2, rest⟩ <;> rw [h2] at h <;>
    simp only [Option.some.injEq, Prod.mk.injEq] at h
  · exact absurd h (by simp)
  obtain ⟨rfl, rfl⟩ := h
  exact ⟨st1, ev, rest, rfl, h2, rfl⟩

/-! ## The cycle counter (C5) -/

theorem tick_cycle {cfg : Startup} {w : World} {st st' : LoopState} {events : List Event}
    (h : tick cfg w st = some (st', events)) :
    st'.loops = (if st.loops + 1 = 15 then 0 else st.loops + 1) ∧
    (st.loops + 1 = 15 → ∃ device,
      cfg.devicesResponse.Result.Devices[cfg.webBoxDevice]? = some device ∧
      GetWebBoxData w device.Key (st.panels.InverterStrings 9) (st.panels.InverterStrings 10)
        = some (st'.panels.InverterStrings 9, st'.panels.InverterStrings 10) ∧
      events.filter Event.lowFrequency
        = [Event.webBox device.Key,
           Event.record (snapshotRow st'.panels) (w.Exec (snapshotRow st'.panels))]) ∧
    (st.loops + 1 ≠ 15 → events.filter Event.lowFrequency = [] ∧
      st'.panels.InverterStrings 9 = st.panels.InverterStrings 9 ∧
      st'.panels.InverterStrings 10 = st.panels.InverterStrings 10) := by
  obtain ⟨o1, o2, o3, h1, h2, h3, -, -, -, hcase⟩ := tick_inv h
  obtain ⟨fr1, f1, -, -⟩ := pollSlot_inv h1
  obtain ⟨fr2, f2, -, -⟩ := pollSlot_inv h2
  obtain ⟨fr3, f3, -, -⟩ := pollSlot_inv h3
  have keep : ∀ i : Fin 11, 9 ≤ i.val →
      o3.2.1.InverterStrings i = st.panels.InverterStrings i := by
    intro i hi
    rw [fr3 i (by omega), fr2 i (by omega), fr1 i (by omega)]
  rcases hcase with ⟨hl, hl', device, ssA, ssB, hd, hg, -, h9, h10, hev⟩ | ⟨hl, hl', hp, hev⟩
  · refine ⟨by simp [hl, hl'], fun _ => ⟨device, hd, ?_, ?_⟩, fun hne => absurd hl hne⟩
    · rw [h9, h10, ← keep 9 (by decide), ← keep 10 (by decide)]
      exact hg
    · rw [hev, recordData_row]
      simp [List.filter_append, f1, f2, f3, Event.lowFrequency]
  · refine ⟨by simp [hl, hl'], fun he => absurd he hl, fun _ => ⟨?_, ?_, ?_⟩⟩
    · rw [hev]
      simp [List.filter_append, f1, f2, f3]
    · rw [hp]
      exact keep 9 (by decide)
    · rw [hp]
      exact keep 10 (by decide)

theorem run_cycle_from {cfg : Startup} (ws : List World) (st st' : LoopState)
    (evs : List (List Event)) (hlt : st.loops < 15)
    (h : run cfg ws st = some (st', evs)) :
    st'.loops = (st.loops + ws.length) % 15 ∧ evs.length = ws.length ∧
    ∀ n tickEvents, evs[n]? = some tickEvents →
      (15 ∣ st.loops + n + 1 → ∃ device row err,
        cfg.devicesResponse.Result.Devices[cfg.webBoxDevice]? = some device ∧
        tickEvents.filter Event.lowFrequency
          = [Event.webBox device.Key, Event.record row err]) ∧
      (¬ 15 ∣ st.loops + n + 1 → tickEvents.filter Event.lowFrequency = []) := by
  induction ws generalizing st evs with
  | nil =>
    simp only [run, Option.some.injEq, Prod.mk.injEq] at h
    obtain ⟨rfl, rfl⟩ := h
    refine ⟨by simp [Nat.mod_eq_of_lt hlt], rfl, ?_⟩
    intro n t hn
    simp at hn
  | cons w ws ih =>
    obtain ⟨st1, ev, rest, ht, hr, rfl⟩ := run_cons_inv h
    obtain ⟨hl1, hyes, hno⟩ := tick_cycle ht
    have hlt1 : st1.loops < 15 := by
      rw [hl1]
      split_ifs <;> omega
    obtain ⟨hfin, hlen, hev⟩ := ih st1 rest hlt1 hr
    refine ⟨?_, by simp [hlen], ?_⟩
    · rw [hfin, hl1, List.length_cons]
      split_ifs <;> omega
    · intro n t hn
      match n, hn with
      | 0, hn =>
        simp only [List.getElem?_cons_zero, Option.some.injEq] at hn
        subst hn
        constructor
        · intro hdvd
          obtain ⟨device, hd, -, hfilter⟩ := hyes (by omega)
          exact ⟨device, _, _, hd, hfilter⟩
        · intro hdvd
          exact (hno (by omega)).1
      | k + 1, hn =>
        simp only [List.getElem?_cons_succ] at hn
        obtain ⟨a, b⟩ := hev k t hn
        constructor
        · intro hdvd
          apply a
          rw [hl1]
          split_ifs <;> omega
        · intro hdvd
          apply b
          rw [hl1]
          split_ifs <;> omega

theorem down_wellSized : World.down.WellSized := by
  intro c reg b hb
  simp [World.down] at hb

theorem down_gatewayAnswers : World.down.GatewayAnswers := by
  intro key r hr
  simp [World.down] at hr

theorem startupFound_found : startupFound.Found := by
  simp [Startup.Found, startupFound]

/-- C5, as the code has it: start from cycle counter 0 and let `pre` be the
ticks before the `n`-th, `n = pre.length + 1`.  Whenever those ticks and the
`n`-th tick run to completion, the counter after the `n`-th tick is `n mod 15`
(so within 0..14); if 15 divides `n` the tick calls `GetWebBoxData` for the
start-up device, which fills snapshot entries 9 and 10, and then `recordData`,
which hands the full row of the resulting snapshot to the sink, in that order;
otherwise it makes neither call and leaves entries 9 and 10 alone.  The ticks do
run to completion when the start-up index is inside the device list, register
payloads have at least four bytes and gateway answers list a device. -/
theorem tick_low_frequency_cycle (cfg : Startup) (pre : List World) (w : World)
    (st : LoopState) (h0 : st.loops = 0) :
    (∀ stn evs st' events, run cfg pre st = some (stn, evs) →
      tick cfg w stn = some (st', events) →
      st'.loops = (pre.length + 1) % 15 ∧ st'.loops < 15 ∧
      (15 ∣ pre.length + 1 → ∃ device,
        cfg.devicesResponse.Result.Devices[cfg.webBoxDevice]? = some device ∧
        GetWebBoxData w device.Key (stn.panels.InverterStrings 9)
            (stn.panels.InverterStrings 10)
          = some (st'.panels.InverterStrings 9, st'.panels.InverterStrings 10) ∧
        events.filter Event.lowFrequency
          = [Event.webBox device.Key,
             Event.record (snapshotRow st'.panels) (w.Exec (snapshotRow st'.panels))]) ∧
      (¬ 15 ∣ pre.length + 1 → events.filter Event.lowFrequency = [] ∧
        st'.panels.InverterStrings 9 = stn.panels.InverterStrings 9 ∧
        st'.panels.InverterStrings 10 = stn.panels.InverterStrings 10)) ∧
    (cfg.Found → (∀ v ∈ pre, v.WellSized ∧ v.GatewayAnswers) →
      w.WellSized ∧ w.GatewayAnswers →
      ∃ stn evs st' events, run cfg pre st = some (stn, evs) ∧
        tick cfg w stn = some (st', events)) := by
  constructor
  · intro stn evs st' events hrun htick
    obtain ⟨hn, -, -⟩ := run_cycle_from pre st stn evs (by omega) hrun
    rw [h0, Nat.zero_add] at hn
    obtain ⟨hl, hyes, hno⟩ := tick_cycle htick
    have hlt : stn.loops < 15 := by
      rw [hn]
      exact Nat.mod_lt _ (by decide)
    refine ⟨?_, ?_, fun hdvd => hyes (by omega), fun hdvd => hno (by omega)⟩
    · rw [hl]
      split_ifs <;> omega
    · rw [hl]
      split_ifs <;> omega
  · intro hf hpre hw
    obtain ⟨⟨stn, evs⟩, hrun⟩ := run_total hf pre hpre st
    obtain ⟨⟨st', events⟩, htick⟩ := tick_total hf hw.1 hw.2 stn
    exact ⟨stn, evs, st', events, hrun, htick⟩

theorem gatewayWorld_sound : gatewayWorld.WellSized ∧ gatewayWorld.GatewayAnswers := by
  constructor
  · intro c reg b hb
    simp [gatewayWorld, World.down] at hb
  · intro key r hr
    have : r = ⟨⟨[⟨"WRTU4Q37:2000123456", "WRTU4Q37:2000123456",
        [⟨"A", "A.Ms.Amp", "A.Ms.Amp", "1.5"⟩, ⟨"V", "A.Ms.Vol", "A.Ms.Vol", "230"⟩,
         ⟨"W", "A.Ms.Watt", "A.Ms.Watt", "345"⟩, ⟨"A", "B.Ms.Amp", "B.Ms.Amp", "2"⟩,
         ⟨"V", "B.Ms.Vol", "B.Ms.Vol", "230"⟩]⟩]⟩⟩ := by
      simpa [gatewayWorld] using hr.symm
    rw [this]
    simp

theorem tick_low_frequency_cycle_witness :
    ∃ stn evs st' events,
      run startupFound (List.replicate 14 World.down) LoopState.initial = some (stn, evs) ∧
      tick startupFound gatewayWorld stn = some (st', events) ∧
      st'.loops = ((List.replicate 14 World.down).length + 1) % 15 ∧ st'.loops < 15 ∧
      (15 ∣ (List.replicate 14 World.down).length + 1 → ∃ device,
        startupFound.devicesResponse.Result.Devices[startupFound.webBoxDevice]? = some device ∧
        GetWebBoxData gatewayWorld device.Key (stn.panels.InverterStrings 9)
            (stn.panels.InverterStrings 10)
          = some (st'.panels.InverterStrings 9, st'.panels.InverterStrings 10) ∧
        events.filter Event.lowFrequency
          = [Event.webBox device.Key,
             Event.record (snapshotRow st'.panels)
               (gatewayWorld.Exec (snapshotRow st'.panels))]) ∧
      (¬ 15 ∣ (List.replicate 14 World.down).length + 1 →
        events.filter Event.lowFrequency = [] ∧
        st'.panels.InverterStrings 9 = stn.panels.InverterStrings 9 ∧
        st'.panels.InverterStrings 10 = stn.panels.InverterStrings 10) := by
  have T := tick_low_frequency_cycle startupFound (List.replicate 14 World.down) gatewayWorld
    LoopState.initial rfl
  obtain ⟨stn, evs, st', events, hrun, htick⟩ := T.2 startupFound_found (fun v hv => by
    rw [List.eq_of_mem_replicate hv]
    exact ⟨down_wellSized, down_gatewayAnswers⟩) gatewayWorld_sound
  exact ⟨stn, evs, st', events, hrun, htick, T.1 stn evs st' events hrun htick⟩

/-- C5 fails on the code: 15 is a multiple of 15, yet the fifteenth tick makes
neither low-frequency call when it panics first.  After a start-up scan that
found no WRTU inverter, fourteen ticks leave the counter at 14 and the fifteenth
panics on `Devices[webBoxDevice]` before `GetWebBoxData`; after a start-up that
found its device, a gateway answer with an empty device list panics inside
`GetWebBoxData` before `recordData`; and a two-byte register payload panics in
the very first tick. -/
theorem fifteenth_tick_panics :
    (run startupNotFound (List.replicate 14 World.down) LoopState.initial).map
        (fun out => out.1.loops) = some 14 ∧
    run startupNotFound (List.replicate 15 World.down) LoopState.initial = none ∧
    (run startupFound (List.replicate 14 World.down) LoopState.initial).map
        (fun out => out.1.loops) = some 14 ∧
    run startupFound (List.replicate 14 World.down ++ [emptyGatewayWorld]) LoopState.initial
      = none ∧
    run startupFound [shortPayloadWorld] LoopState.initial = none :=
  ⟨rfl, rfl, rfl, rfl, rfl⟩

/-! ## A slot that cannot connect (C9) -/

theorem tick_disconnected_slot {cfg : Startup} {w : World} {st st' : LoopState}
    {events : List Event} (slot : Fin 3)
    (hclient : st.client slot = none) (hconn : w.Connect (slotAddress slot) ≠ none)
    (h : tick cfg w st = some (st', events)) :
    st'.client slot = none ∧
    (∀ i : Fin 11, slotOffset slot ≤ i.val → i.val < slotOffset slot + 3 →
      st'.panels.InverterStrings i = st.panels.InverterStrings i) ∧
    (∀ c, Event.poll c (slotOffset slot) ∉ events) := by
  obtain ⟨o1, o2, o3, h1, h2, h3, hc1, hc2, hc3, hcase⟩ := tick_inv h
  obtain ⟨fr1, -, po1, di1⟩ := pollSlot_inv h1
  obtain ⟨fr2, -, po2, di2⟩ := pollSlot_inv h2
  obtain ⟨fr3, -, po3, di3⟩ := pollSlot_inv h3
  have hp : ∀ i : Fin 11, i.val < 9 →
      st'.panels.InverterStrings i = o3.2.1.InverterStrings i := by
    rcases hcase with ⟨-, -, device, ssA, ssB, -, -, hp, -, -, -⟩ | ⟨-, -, hp, -⟩
    · exact hp
    · intro i _
      rw [hp]
  have hev : ∀ c off, Event.poll c off ∈ events →
      Event.poll c off ∈ o1.2.2 ∨ Event.poll c off ∈ o2.2.2 ∨ Event.poll c off ∈ o3.2.2 := by
    intro c off hmem
    rcases hcase with ⟨-, -, device, ssA, ssB, -, -, -, -, -, hev⟩ | ⟨-, -, -, hev⟩
    · rw [hev] at hmem
      simp only [List.mem_append, List.mem_cons, List.mem_singleton, List.not_mem_nil,
        or_false] at hmem
      rcases hmem with ((h | h) | h) | h
      · exact Or.inl h
      · exact Or.inr (Or.inl h)
      · exact Or.inr (Or.inr h)
      · rcases h with h | h <;> exact absurd h (by simp)
    · rw [hev] at hmem
      simp only [List.mem_append] at hmem
      rcases hmem with (h | h) | h
      · exact Or.inl h
      · exact Or.inr (Or.inl h)
      · exact Or.inr (Or.inr h)
  fin_cases slot
  · simp only [LoopState.client, slotAddress, slotOffset, Fin.zero_eta] at hclient hconn ⊢
    have e1 := di1 hclient hconn
    refine ⟨by rw [hc1, e1], ?_, ?_⟩
    · intro i hlo hhi
      rw [hp i (by omega), fr3 i (by omega), fr2 i (by omega), e1]
    · intro c hmem
      rcases hev c 0 hmem with h | h | h
      · rw [e1] at h
        simp at h
      · exact absurd (po2 c 0 h) (by decide)
      · exact absurd (po3 c 0 h) (by decide)
  · simp only [LoopState.client, slotAddress, slotOffset, Fin.mk_one] at hclient hconn ⊢
    have e2 := di2 hclient hconn
    refine ⟨by rw [hc2, e2], ?_, ?_⟩
    · intro i hlo hhi
      rw [hp i (by omega), fr3 i (by omega), e2, fr1 i (by omega)]
    · intro c hmem
      rcases hev c 3 hmem with h | h | h
      · exact absurd (po1 c 3 h) (by decide)
      · rw [e2] at h
        simp at h
      · exact absurd (po3 c 3 h) (by decide)
  · simp only [LoopState.client, slotAddress, slotOffset] at hclient hconn ⊢
    have e3 := di3 hclient hconn
    refine ⟨by rw [hc3, e3], ?_, ?_⟩
    · intro i hlo hhi
      rw [hp i (by omega), e3, fr2 i (by omega), fr1 i (by omega)]
    · intro c hmem
      rcases hev c 6 hmem with h | h | h
      · exact absurd (po1 c 6 h) (by decide)
      · exact absurd (po2 c 6 h) (by decide)
      · rw [e3] at h
        simp at h

/-- C9: over any number of consecutive ticks during which a register-based slot
starts without a client and every connection attempt to its address fails, the
loop never calls `getPanelData` for that slot (no register read, no snapshot
write by it): after the ticks its three snapshot entries equal their values
before the first tick and its client is still `nil`.  The run does not stop
when the start-up index is in range, payloads are well-sized and gateway
answers list a device. -/
theorem run_disconnected_slot (cfg : Startup) (slot : Fin 3) (ws : List World)
    (st : LoopState) (hclient : st.client slot = none)
    (hconn : ∀ w ∈ ws, w.Connect (slotAddress slot) ≠ none) :
    (∀ st' evs, run cfg ws st = some (st', evs) →
      st'.client slot = none ∧
      (∀ i : Fin 11, slotOffset slot ≤ i.val → i.val < slotOffset slot + 3 →
        st'.panels.InverterStrings i = st.panels.InverterStrings i) ∧
      (∀ tickEvents ∈ evs, ∀ c, Event.poll c (slotOffset slot) ∉ tickEvents)) ∧
    (cfg.Found → (∀ w ∈ ws, w.WellSized ∧ w.GatewayAnswers) →
      ∃ st' evs, run cfg ws st = some (st', evs)) := by
  constructor
  · induction ws generalizing st with
    | nil =>
      intro st' evs h
      simp only [run, Option.some.injEq, Prod.mk.injEq] at h
      obtain ⟨rfl, rfl⟩ := h
      exact ⟨hclient, fun _ _ _ => rfl, fun t ht => absurd ht (List.not_mem_nil _)⟩
    | cons w ws ih =>
      intro st' evs h
      obtain ⟨st1, ev, rest, ht, hr, rfl⟩ := run_cons_inv h
      obtain ⟨c1, p1, n1⟩ := tick_disconnected_slot slot hclient
        (hconn w (List.mem_cons_self _ _)) ht
      obtain ⟨c2, p2, n2⟩ := ih st1 c1 (fun w' hw' => hconn w' (List.mem_cons_of_mem _ hw'))
        st' rest hr
      refine ⟨c2, fun i hlo hhi => by rw [p2 i hlo hhi, p1 i hlo hhi], ?_⟩
      intro t ht
      rcases List.mem_cons.mp ht with rfl | ht
      · exact n1
      · exact n2 t ht
  · intro hf hw
    obtain ⟨⟨st', evs⟩, h⟩ := run_total hf ws hw st
    exact ⟨st', evs, h⟩

theorem unreachableSlotWorld_sound :
    unreachableSlotWorld.WellSized ∧ unreachableSlotWorld.GatewayAnswers := by
  constructor
  · intro c reg b hb
    have : b = [0, 0, 19, 136] := by
      simpa [unreachableSlotWorld] using hb.symm
    simp [this]
  · intro key r hr
    simp [unreachableSlotWorld, World.down] at hr

theorem run_disconnected_slot_witness :
    ∃ st' evs,
      run startupFound (List.replicate 5 unreachableSlotWorld) LoopState.initial
        = some (st', evs) ∧
      st'.client 1 = none ∧
      (∀ i : Fin 11, slotOffset 1 ≤ i.val → i.val < slotOffset 1 + 3 →
        st'.panels.InverterStrings i = LoopState.initial.panels.InverterStrings i) ∧
      (∀ tickEvents ∈ evs, ∀ c, Event.poll c (slotOffset 1) ∉ tickEvents) := by
  have T := run_disconnected_slot startupFound 1 (List.replicate 5 unreachableSlotWorld)
    LoopState.initial rfl (fun w hw => by
      rw [List.eq_of_mem_replicate hw]
      simp [unreachableSlotWorld, slotAddress])
  obtain ⟨st', evs, h⟩ := T.2 startupFound_found (fun w hw => by
    rw [List.eq_of_mem_replicate hw]
    exact unreachableSlotWorld_sound)
  exact ⟨st', evs, h, T.1 st' evs h⟩

/-! ## Start-up without a WRTU inverter (C8) -/

/-- With a WRTU inverter in the list the scan stops at its index and the
fifteenth tick queries the gateway with its key. -/
theorem processLoop_with_WRTU :
    (match withWRTUWorld.GetDevices with
      | .ok r => findWRTU r.Result.Devices r.Result.TotalDevicesReturned.toNat 0
      | .error _ => none) = some 1 ∧
    ((processLoop withWRTUWorld (List.replicate 15 World.down) CurrentValues.zero).map
      fun out => (out.1.loops, out.2.map fun events => events.filter Event.lowFrequency
        |>.map fun e => match e with
          | .webBox key => key
          | _ => ""))
      = some (0, List.replicate 14 [] ++ [["WRTU4Q37:2000123456", ""]]) := by
  refine ⟨by decide, ?_⟩
  rfl

/-- When no device name contains "WRTU" the scan ends at the number of devices
it was told to visit. -/
theorem findWRTU_not_found (devices : List Device)
    (hnone : ∀ d ∈ devices, Contains d.Name "WRTU" = false) (remaining webBoxDevice : Nat)
    (hlen : webBoxDevice + remaining = devices.length) :
    findWRTU devices remaining webBoxDevice = some devices.length := by
  induction remaining generalizing webBoxDevice with
  | zero =>
    simp only [findWRTU]
    rw [← hlen, Nat.add_zero]
  | succ n ih =>
    have hlt : webBoxDevice < devices.length := by omega
    have hmem : devices[webBoxDevice] ∈ devices := List.getElem_mem hlt
    simp only [findWRTU, List.getElem?_eq_getElem hlt, hnone _ hmem]
    exact ih (webBoxDevice + 1) (by omega)

/-- With a device list that names no WRTU inverter and reports its own length,
`processLoop` does not survive its fifteenth tick, whatever the collaborators
answer: `Devices[webBoxDevice]` is evaluated one past the last device. -/
theorem processLoop_without_WRTU (w0 : World) (ws : List World) (panels : CurrentValues)
    (r : DevicesResponse) (hdev : w0.GetDevices = .ok r)
    (hnone : ∀ d ∈ r.Result.Devices, Contains d.Name "WRTU" = false)
    (htotal : r.Result.TotalDevicesReturned = r.Result.Devices.length)
    (hlen : 15 ≤ ws.length) :
    processLoop w0 ws panels = none := by
  have hscan : findWRTU r.Result.Devices r.Result.TotalDevicesReturned.toNat 0
      = some r.Result.Devices.length :=
    findWRTU_not_found _ hnone _ 0 (by rw [htotal]; simp)
  simp only [processLoop, hdev, hscan]
  rcases hrun : run ⟨r, r.Result.Devices.length⟩ ws _ with _ | ⟨st', evs⟩
  · rfl
  · exfalso
    obtain ⟨-, hl, hev⟩ := run_cycle_from ws _ st' evs (by simp) hrun
    have h14 : 14 < evs.length := by omega
    obtain ⟨hyes, -⟩ := hev 14 evs[14] (List.getElem?_eq_getElem h14)
    obtain ⟨device, row, err, hd, -⟩ := hyes (by simp)
    simp at hd

/-- C8 fails on the code: the gateway lists two devices, neither a WRTU
inverter; the scan ends at index 2, the loop runs fourteen ticks, and on the
fifteenth tick `Devices[2]` is out of range: the goroutine panics instead of
skipping the gateway path. -/
theorem processLoop_panics_on_fifteenth_tick :
    (match noWRTUWorld.GetDevices with
      | .ok r => findWRTU r.Result.Devices r.Result.TotalDevicesReturned.toNat 0
      | .error _ => none) = some 2 ∧
    (processLoop noWRTUWorld (List.replicate 14 World.down) CurrentValues.zero).isSome = true ∧
    processLoop noWRTUWorld (List.replicate 15 World.down) CurrentValues.zero = none := by
  refine ⟨by decide, ?_, ?_⟩
  · rfl
  · rfl

end SMAWatch
